import Mathlib

/-
  Verification of the LeetCode-Data-Fetcher pipeline.

  Shallow embedding of the Python sources:
    src/utils.py     : make_request, handle_rate_limit, parse_html_content
    src/scraper.py   : scrape_problem_description, scrape_submission_code
    src/fetcher.py   : LeetCodeFetcher (test_connection, fetch_profile_stats,
                       fetch_solved_questions, fetch_submissions_for_question,
                       fetch_problem_details, process_data)
    main.py          : main

  Network effects are modelled by environment functions supplying the outcome
  of each HTTP request (a response with status and parsed body, or a
  network-level exception).  Sleeps are irrelevant to the claims and are not
  modelled.  A Python function that can `return` a value, `raise`, or fall off
  the end (returning `None`) is modelled by `PyResult`.
-/

namespace LCF

/-! ## Python string primitives -/

/-- Python whitespace characters (the `\s` class / `str.strip` default set). -/
def isPySpace (c : Char) : Bool :=
  c = ' ' || c = '\t' || c = '\n' || c = '\r' || c = '\x0b' || c = '\x0c'

/-- `leadsWith n h`: the char list `n` is an initial segment of `h`. -/
def leadsWith : List Char → List Char → Bool
  | [], _ => true
  | _ :: _, [] => false
  | a :: s, b :: t => a = b && leadsWith s t

/-- `occursInL n h`: `n` occurs contiguously somewhere inside `h`. -/
def occursInL (n : List Char) : List Char → Bool
  | [] => n.isEmpty
  | c :: t => leadsWith n (c :: t) || occursInL n t

/-- Python's `needle in hay` on strings. -/
def pyIn (needle hay : String) : Bool := occursInL needle.data hay.data

/-! ## Result of running a Python callable

A Python function body can `return` a value, `raise` an exception (modelled by
its message string, since the source dispatches on `str(e)` contents), or run
off the end of the function and implicitly return `None`. -/

inductive PyResult (β : Type) where
  | value (b : β)
  | raised (msg : String)
  | noneReturn
  deriving Repr, DecidableEq

/-! ## utils.make_request

The transport environment maps the index of an issued request (0-based) to its
outcome: either a network-level exception (`requests.exceptions.RequestException`)
or an HTTP response carrying a status code and its decoded body. -/

inductive ReqOutcome (β : Type) where
  | netErr (msg : String)
  | resp (status : Nat) (body : β)
  deriving Repr, DecidableEq

def authFailedMsg : String := "Authentication failed: Invalid or expired cookies"

def rateLimitedMsg : String := "Rate limited"

def requestFailedMsg (status : Nat) : String :=
  "Request failed with status code: " ++ toString status

def retriesExhaustedMsg (maxRetries : Nat) (m : String) : String :=
  "Request failed after " ++ toString maxRetries ++ " retries: " ++ m

/-- The `while retries < max_retries` loop of `make_request`, with the loop
counter made structural: `gas` is `maxRetries - retries`, so `gas = 0` exactly
when the loop guard fails (and Python falls off the end returning `None`).
Returns the result together with the number of HTTP requests issued.
`count` is the number of requests issued so far. -/
def makeRequestGo (transport : Nat → ReqOutcome β) (maxRetries : Nat) :
    Nat → Nat → Nat → PyResult β × Nat
  | _retries, count, 0 => (.noneReturn, count)
  | retries, count, g + 1 =>
    match transport count with
    | .resp 200 body => (.value body, count + 1)
    | .resp 403 _ => (.raised authFailedMsg, count + 1)
    | .resp 429 _ => (.raised rateLimitedMsg, count + 1)
    | .resp s _ => (.raised (requestFailedMsg s), count + 1)
    | .netErr m =>
      if retries + 1 ≥ maxRetries then
        (.raised (retriesExhaustedMsg maxRetries m), count + 1)
      else
        makeRequestGo transport maxRetries (retries + 1) (count + 1) g

/-- `utils.make_request(url, payload, cookies, headers, max_retries)`:
the url/payload/cookies/headers only shape the request, which the transport
environment abstracts; the body defaults `max_retries=3` at call sites. -/
def make_request (transport : Nat → ReqOutcome β) (maxRetries : Nat) :
    PyResult β × Nat :=
  makeRequestGo transport maxRetries 0 0 maxRetries

/-! ## utils.handle_rate_limit

The operation environment maps the current value of the `retries` counter
(equivalently, the number of rate-limited failures so far) to the outcome of
invoking `request_func`. -/

/-- The `while retries < max_retries` loop of `handle_rate_limit`, with
`gas = maxRetries - retries` structural as above.  The inner
`retries < maxRetries` test is kept exactly as in the source (where it is
always true at that point, having just passed the loop guard). -/
def handleRateLimitGo (f : Nat → PyResult β) (maxRetries : Nat) :
    Nat → Nat → PyResult β
  | _retries, 0 => .noneReturn
  | retries, g + 1 =>
    match f retries with
    | .value b => .value b
    | .noneReturn => .noneReturn
    | .raised e =>
      if pyIn rateLimitedMsg e && decide (retries < maxRetries) then
        handleRateLimitGo f maxRetries (retries + 1) g
      else
        .raised e

/-- `utils.handle_rate_limit(request_func, max_retries)`; call sites use the
default `max_retries=5`. -/
def handle_rate_limit (f : Nat → PyResult β) (maxRetries : Nat) : PyResult β :=
  handleRateLimitGo f maxRetries 0 maxRetries

/-! ## utils.parse_html_content

The HTML document handed to BeautifulSoup is modelled as a forest of nodes
(tagged elements with children, and text nodes).  `soup.get_text()` is the
concatenation of all text nodes in document order; `code.extract()` over
`soup.find_all('pre')` removes every `pre` element together with its subtree.
The two `re.sub` calls and `str.strip()` are modelled by structural scanners
over the character list with the exact semantics of the regexes:
`re.sub(r'\n\s*\n', '\n\n', ·)` (leftmost, greedy, non-overlapping) and
`re.sub(r' +', ' ', ·)`. -/

mutual
inductive HNode where
  | text (s : String)
  | elem (tag : String) (children : HForest)
  deriving Repr
inductive HForest where
  | nil
  | cons (n : HNode) (f : HForest)
  deriving Repr
end

mutual
/-- Text of one node: `get_text` restricted to a node. -/
def getTextN : HNode → List Char
  | .text s => s.data
  | .elem _ cs => getTextF cs
/-- `soup.get_text()`: concatenation of all text nodes in document order. -/
def getTextF : HForest → List Char
  | .nil => []
  | .cons n f => getTextN n ++ getTextF f
end

/-- Forest concatenation. -/
def hAppend : HForest → HForest → HForest
  | .nil, g => g
  | .cons n f, g => .cons n (hAppend f g)

mutual
/-- `for code in soup.find_all('pre'): code.extract()` applied to one node:
a `pre` element disappears with its whole subtree. -/
def removePreN : HNode → HForest
  | .text s => .cons (.text s) .nil
  | .elem tag cs =>
    if tag = "pre" then .nil else .cons (.elem tag (removePreF cs)) .nil
def removePreF : HForest → HForest
  | .nil => .nil
  | .cons n f => hAppend (removePreN n) (removePreF f)
end

/-- `re.sub(r' +', ' ', ·)` as a scanner: `inRun` records whether the previous
character was part of a space run already replaced. -/
def csGo : Bool → List Char → List Char
  | _, [] => []
  | inRun, c :: rest =>
    if c = ' ' then
      if inRun then csGo true rest else ' ' :: csGo true rest
    else c :: csGo false rest

def collapseSpaces (l : List Char) : List Char := csGo false l

mutual
/-- `re.sub(r'\n\s*\n', '\n\n', ·)` as a scanner, part 1: outside a match
attempt, characters are copied; a `'\n'` opens a candidate match. -/
def blMain : List Char → List Char
  | [] => []
  | c :: rest => if c = '\n' then blRun rest [] false else c :: blMain rest
/-- Part 2: after an opening `'\n'`, scan the maximal whitespace run.
`seenNL` records whether a further `'\n'` (so a regex match, extended
greedily to the last `'\n'` of the run) has been seen; `pending` holds the
whitespace after the most recent `'\n'`, which lies outside the greedy match
and is emitted verbatim when the run ends. -/
def blRun : List Char → List Char → Bool → List Char
  | [], pending, seenNL =>
    if seenNL then '\n' :: '\n' :: pending else '\n' :: pending
  | c :: rest, pending, seenNL =>
    if c = '\n' then blRun rest [] true
    else if isPySpace c then blRun rest (pending ++ [c]) seenNL
    else if seenNL then '\n' :: '\n' :: (pending ++ c :: blMain rest)
    else '\n' :: (pending ++ c :: blMain rest)
end

def collapseBlank (l : List Char) : List Char := blMain l

/-- Python `str.strip()`. -/
def pyStrip (l : List Char) : List Char :=
  ((l.dropWhile (fun c => isPySpace c)).reverse.dropWhile
      (fun c => isPySpace c)).reverse

/-- `utils.parse_html_content(html_content)`: `none` models a falsy input
(`None` or the empty string), for which the source returns `""` before any
parsing. -/
def parse_html_content (content : Option HForest) : String :=
  match content with
  | none => ""
  | some doc =>
    String.mk (pyStrip (collapseSpaces (collapseBlank (getTextF (removePreF doc)))))

/-! ## Python int conversions

`int(x)` on a string accepts surrounding whitespace, an optional sign and a
nonempty digit run (PEP-515 underscores are not exercised by this code's
data and are left out of the model); on `None` it raises `TypeError`.
`str(x)` renders ints in decimal. -/

/-- Split an optional leading sign; `true` = negative. -/
def pySign : List Char → Bool × List Char
  | [] => (false, [])
  | c :: r =>
    if c = '+' then (false, r)
    else if c = '-' then (true, r)
    else (false, c :: r)

/-- `int(s)` for a string `s`: `none` models a raised `ValueError`. -/
def pyParseInt (s : String) : Option Int :=
  let sr := pySign (s.data.dropWhile (fun c => isPySpace c))
  let ds := sr.2.takeWhile (fun c => c.isDigit)
  let rest := sr.2.dropWhile (fun c => c.isDigit)
  if ds.isEmpty then none
  else if rest.all (fun c => isPySpace c) then
    let n : Nat := ds.foldl (fun v c => 10 * v + (c.toNat - '0'.toNat)) 0
    some (if sr.1 then -(n : Int) else (n : Int))
  else none

/-- Decimal digits of a positive natural, most significant first, prepended
to `acc`. -/
def natDigsAux : Nat → List Char → List Char
  | 0, acc => acc
  | n + 1, acc =>
    natDigsAux ((n + 1) / 10) (Char.ofNat ('0'.toNat + (n + 1) % 10) :: acc)
decreasing_by exact Nat.div_lt_self (Nat.succ_pos n) (by omega)

def natToStrL (n : Nat) : List Char := if n = 0 then ['0'] else natDigsAux n []

/-- `str(i)` for an int `i`. -/
def pyStrOfInt (i : Int) : String :=
  if i < 0 then String.mk ('-' :: natToStrL i.natAbs)
  else String.mk (natToStrL i.natAbs)

/-! ## Raw submission values (src/fetcher.py, fetch_submissions_for_question)

A value found under `"timestamp"` in the JSON submission dump: an integer, a
string, or JSON null.  (`int()` of a float truncates; float timestamps do not
occur in this API's dumps and are left out of the model.) -/

inductive TsVal where
  | intv (n : Int)
  | strv (s : String)
  | nullv
  deriving Repr, DecidableEq

/-- `int(sub["timestamp"])`: `none` models the `ValueError`/`TypeError`
caught at fetcher.py lines 170-174. -/
def pyIntOfTs : TsVal → Option Int
  | .intv n => some n
  | .strv s => pyParseInt s
  | .nullv => none

/-- `str(sub["timestamp"])` as stored in the merged record. -/
def pyStrOfTs : TsVal → String
  | .intv n => pyStrOfInt n
  | .strv s => s
  | .nullv => "None"

/-- Python truthiness of an optional string (`None` and `""` are falsy). -/
def truthyOpt : Option String → Bool
  | none => false
  | some s => decide (s ≠ "")

/-- `str(x)` where `x` is an optional string (`str(None) = "None"`). -/
def pyStrOfOpt : Option String → String
  | none => "None"
  | some s => s

/-- One entry of `submissions_dump`.  `Option` models a missing key (for
`timestamp`, also distinguishing JSON null via `TsVal.nullv`, since
`sub["timestamp"]` raises `KeyError` only when the key is absent). -/
structure RawSub where
  status_display : Option String
  lang : Option String
  timestamp : Option TsVal
  id : Option String
  runtime : Option String
  memory : Option String
  code : Option String
  deriving Repr, DecidableEq

/-- The record stored per language by the merge step (fetcher.py 189-198). -/
structure SubRecordOut where
  status : String
  timestamp : String
  runtime : String
  memory : String
  language : String
  submission_id : String
  code : String
  deriving Repr, DecidableEq

/-! Insertion-ordered dictionary, as Python's `dict`: updating an existing
key keeps its position, a new key goes to the end; `.values()` lists values
in key-insertion order. -/

def dictFind : List (String × α) → String → Option α
  | [], _ => none
  | (k, v) :: t, key => if k = key then some v else dictFind t key

def dictSet : List (String × α) → String → α → List (String × α)
  | [], key, v => [(key, v)]
  | (k, w) :: t, key, v =>
    if k = key then (k, v) :: t else (k, w) :: dictSet t key v

def dictValues (d : List (String × α)) : List α := d.map (fun kv => kv.2)

/-- fetcher.py 178-187 and the `"code": code or ""` entry: if the API dump
carries no (truthy) code and the submission id is truthy, scrape the code;
a falsy scrape result degrades to the sentinel placeholder. -/
def resolveCode (scrape : String → Option String) (idv code : Option String) :
    String :=
  let c1 : Option String :=
    if truthyOpt code = false && truthyOpt idv = true then
      match idv with
      | some s =>
        match scrape s with
        | some t => if t = "" then some "// Code could not be retrieved" else some t
        | none => some "// Code could not be retrieved"
      | none => code
    else code
  match c1 with
  | some s => s
  | none => ""

/-- The record stored at fetcher.py 189-198 for a kept submission:
`lang` is the (truthy) language, `tsv` the timestamp value that `int()`
accepted. -/
def mkRec (scrape : String → Option String) (lang : String) (tsv : TsVal)
    (sub : RawSub) : SubRecordOut :=
  { status := "Accepted"
    timestamp := pyStrOfTs tsv
    runtime := sub.runtime.getD "N/A"
    memory := sub.memory.getD "N/A"
    language := lang
    submission_id := pyStrOfOpt sub.id
    code := resolveCode scrape sub.id sub.code }

/-- The merge loop of `fetch_submissions_for_question` (fetcher.py 161-198):
filter to `status_display == "Accepted"`, skip falsy languages, skip
submissions whose timestamp value fails `int()` (ValueError/TypeError), keep
per language the record with strictly greater timestamp.  A missing
`"timestamp"` key raises `KeyError`, which the inner `except` does not catch:
`.error` models an exception escaping to the function-level handler. -/
def mergeLoop (scrape : String → Option String) :
    List RawSub → List (String × SubRecordOut) →
    Except Unit (List (String × SubRecordOut))
  | [], acc => .ok acc
  | sub :: rest, acc =>
    if sub.status_display ≠ some "Accepted" then mergeLoop scrape rest acc
    else
      match sub.lang with
      | none => mergeLoop scrape rest acc
      | some lang =>
        if lang = "" then mergeLoop scrape rest acc
        else
          match sub.timestamp with
          | none => .error ()
          | some tsv =>
            match pyIntOfTs tsv with
            | none => mergeLoop scrape rest acc
            | some ts =>
              let isNewer : Except Unit Bool :=
                match dictFind acc lang with
                | none => .ok true
                | some prev =>
                  match pyParseInt prev.timestamp with
                  | some p => .ok (decide (p < ts))
                  | none => .error ()
              match isNewer with
              | .error _ => .error ()
              | .ok true =>
                mergeLoop scrape rest (dictSet acc lang (mkRec scrape lang tsv sub))
              | .ok false => mergeLoop scrape rest acc

/-- Outcome of the single `requests.get` in `fetch_submissions_for_question`:
a network-level exception or a response with status and decoded body (`none`
models a body that is not valid JSON, so `response.json()` raises). -/
inductive SubsOutcome where
  | netErr (msg : String)
  | resp (status : Nat) (body : Option (List RawSub))
  deriving Repr

/-- `fetch_submissions_for_question` (fetcher.py 134-213).  Every failure —
403, 429, other HTTP error (`raise_for_status` fires for 4xx/5xx), network
error, JSON parse error, or an exception escaping the merge loop — returns
`[]` for this slug only. -/
def fetch_submissions_for_question (o : SubsOutcome)
    (scrape : String → Option String) : List SubRecordOut :=
  match o with
  | .netErr _ => []
  | .resp status body =>
    if status = 403 then []
    else if status = 429 then []
    else if 400 ≤ status ∧ status < 600 then []
    else
      match body with
      | none => []
      | some subs =>
        match mergeLoop scrape subs [] with
        | .ok acc => dictValues acc
        | .error _ => []

/-! ### Specification helpers for the merge step -/

/-- The timestamp of `sub` when `sub` is a merge candidate for language
`lang`: accepted status, exactly this (truthy) language, and a timestamp
value that `int()` accepts; `none` otherwise. -/
def candTsOf (lang : String) (sub : RawSub) : Option Int :=
  if sub.status_display = some "Accepted" && sub.lang = some lang
      && decide (lang ≠ "") then
    match sub.timestamp with
    | some tsv => pyIntOfTs tsv
    | none => none
  else none

/-- The per-language replay of the merge loop: the state is the currently
kept record together with its parsed timestamp; a candidate replaces it
exactly when its timestamp is strictly greater. -/
def pickGo (scrape : String → Option String) (lang : String) :
    List RawSub → Option (SubRecordOut × Int) → Option (SubRecordOut × Int)
  | [], cur => cur
  | sub :: rest, cur =>
    match candTsOf lang sub with
    | none => pickGo scrape lang rest cur
    | some ts =>
      match cur with
      | none =>
        pickGo scrape lang rest
          (some (mkRec scrape lang (sub.timestamp.getD .nullv) sub, ts))
      | some (b, bts) =>
        if bts < ts then
          pickGo scrape lang rest
            (some (mkRec scrape lang (sub.timestamp.getD .nullv) sub, ts))
        else pickGo scrape lang rest (some (b, bts))

/-- Relates a dictionary slot to a `pickGo` state: the same record, paired
with its parsed timestamp. -/
def stateMatches : Option SubRecordOut → Option (SubRecordOut × Int) → Prop
  | none, none => True
  | some r, some bm => r = bm.1 ∧ pyParseInt r.timestamp = some bm.2
  | none, some _ => False
  | some _, none => False

def optFst (o : Option (SubRecordOut × Int)) : Option SubRecordOut :=
  o.map Prod.fst

/-- Keys of an association list are pairwise distinct. -/
def dKeysNodup (d : List (String × SubRecordOut)) : Prop :=
  (d.map Prod.fst).Nodup

/-- A scrape environment that always fails (submission pages unavailable). -/
def scrapeNone : String → Option String := fun _ => none

/-- An accepted python3 submission with string timestamp `"100"`. -/
def tieSub (idv : String) : RawSub :=
  { status_display := some "Accepted", lang := some "python3"
    timestamp := some (.strv "100"), id := some idv
    runtime := some "50 ms", memory := some "10 MB", code := some "print(1)" }

/-- Two accepted submissions for the same language with equal timestamps,
in input order `"1001"` then `"1002"`. -/
def rawTie : List RawSub := [tieSub "1001", tieSub "1002"]

/-! ## src/scraper.py: scrape_problem_description -/

/-- Python `str.title()` for the ASCII slugs this code handles: the first
letter of each alphabetic run upper-cased, later letters lower-cased. -/
def titleGo : Bool → List Char → List Char
  | _, [] => []
  | prevAlpha, c :: rest =>
    if c.isAlpha then
      (if prevAlpha then c.toLower else c.toUpper) :: titleGo true rest
    else c :: titleGo false rest

def pyTitle (s : String) : String := String.mk (titleGo false s.data)

/-- `slug.replace('-', ' ').title()`, the slug-derived fallback title. -/
def slugTitle (slug : String) : String := pyTitle (slug.replace "-" " ")

/-- What the scraper's structural selectors find on a problem page:
`titleElem` is the `<title>` text if present; `dataCyDesc = some d` means the
`div[data-cy="question-title"]` container was found and `d` is the text of
the following description container if that was found; `questionContent` is
the legacy `div.question-content` text; `diffAttr` is the `diff` attribute of
a `div[diff]` element; `tags` are the (stripped) tag label texts. -/
structure ProbDoc where
  titleElem : Option String
  dataCyDesc : Option (Option String)
  questionContent : Option String
  diffAttr : Option String
  tags : List String
  deriving Repr

/-- Outcome of the problem-page fetch: an exception anywhere in the `try`
block, or a response with status and parsed page. -/
inductive ProbPage where
  | fetchErr
  | resp (status : Nat) (doc : ProbDoc)
  deriving Repr

/-- The fields returned by both `scrape_problem_description` and
`fetch_problem_details` (all four keys present on every return path). -/
structure ScrapedData where
  title : String
  description : String
  difficulty : String
  tags : List String
  deriving Repr, DecidableEq

/-- `scrape_problem_description` (scraper.py 5-51).  A non-200 status or any
exception yields the all-defaults record; each found sub-field degrades
independently.  In the `data-cy` branch the two `re.sub` normalizations are
applied; in the legacy branch they are not; `strip()` is applied in the
return expression either way. -/
def scrape_problem_description (slug : String) (page : ProbPage) : ScrapedData :=
  match page with
  | .fetchErr => ⟨slug, "", "Unknown", []⟩
  | .resp status doc =>
    if status ≠ 200 then ⟨slug, "", "Unknown", []⟩
    else
      let title := match doc.titleElem with
        | some t => t.replace " - LeetCode" ""
        | none => slug
      let description := match doc.dataCyDesc with
        | some inner =>
          String.mk (collapseSpaces (collapseBlank (inner.getD "").data))
        | none => doc.questionContent.getD ""
      ⟨title, String.mk (pyStrip description.data),
        doc.diffAttr.getD "Unknown", doc.tags⟩

/-! ## src/fetcher.py: fetch_problem_details -/

/-- The `question` object of the GraphQL `questionData` response; `Option`
models a missing key (the `.get` defaults then fire); `content` is the raw
HTML modelled as a parsed forest (`none` ↦ `""`, the `.get` default);
`topicTags` entries are `none` for a null tag or one without `"name"`
(filtered out at fetcher.py line 249). -/
structure QData where
  title : Option String
  content : Option HForest
  difficulty : Option String
  topicTags : List (Option String)
  deriving Repr

/-- The GraphQL envelope as tested at fetcher.py line 235:
`hasErrorsOrNoData` is `"errors" in response_data or not
response_data.get("data")`; `question` is `data.question` (`none` for
missing or null, completing the line-235 disjunction). -/
structure QDResp where
  hasErrorsOrNoData : Bool
  question : Option QData
  deriving Repr

/-- Message of the `AttributeError` raised by `None.get(...)`, the exception
produced when `handle_rate_limit` falls off its loop and returns `None`. -/
def noneGetAttrMsg : String := "'NoneType' object has no attribute 'get'"

/-- `fetch_problem_details` (fetcher.py 215-266).  `gql` is the result of
`handle_rate_limit(lambda: make_request(...))`; `page` feeds the scrape
fallback.  The `scraped_data.get(...)` defaults at lines 241-244 never fire
because `scrape_problem_description` returns every key on all paths, so the
fallback branch returns the scraped record as is. -/
def fetch_problem_details (slug : String) (gql : PyResult QDResp)
    (page : ProbPage) : ScrapedData :=
  match gql with
  | .raised e =>
    ⟨slugTitle slug, "Error fetching details: " ++ e, "Unknown", []⟩
  | .noneReturn =>
    ⟨slugTitle slug, "Error fetching details: " ++ noneGetAttrMsg, "Unknown", []⟩
  | .value resp =>
    match resp.question with
    | none => scrape_problem_description slug page
    | some q =>
      if resp.hasErrorsOrNoData then scrape_problem_description slug page
      else
        ⟨q.title.getD slug, parse_html_content q.content,
          q.difficulty.getD "Unknown", q.topicTags.filterMap id⟩

/-! ## src/fetcher.py: fetch_solved_questions -/

/-- One entry of `stat_status_pairs` with the fields the code reads. -/
structure StatPair where
  status : Option String
  slug : Option String
  title : Option String
  level : Option Nat
  deriving Repr

/-- A solved question as accumulated at fetcher.py 112-116 (all three keys
always present and non-null there). -/
structure SolvedQuestion where
  slug : String
  title : String
  difficulty : String
  deriving Repr, DecidableEq

/-- The questions list built from `stat_status_pairs` (fetcher.py 98-116):
keep `status == "ac"`, skip falsy slugs, fall back to the slug-derived title
when `question__title` is falsy, map difficulty levels 1/2/3. -/
def buildQuestions : List StatPair → List SolvedQuestion
  | [] => []
  | p :: t =>
    if p.status ≠ some "ac" then buildQuestions t
    else
      match p.slug with
      | none => buildQuestions t
      | some slug =>
        if slug = "" then buildQuestions t
        else
          { slug := slug
            title := match p.title with
              | some ti => if ti = "" then slugTitle slug else ti
              | none => slugTitle slug
            difficulty := match p.level with
              | some 1 => "Easy"
              | some 2 => "Medium"
              | some 3 => "Hard"
              | _ => "Unknown" } :: buildQuestions t

/-- Outcome of the `requests.get` in `fetch_solved_questions`. -/
inductive SolvedOutcome where
  | netErr (msg : String)
  | resp (status : Nat) (body : Option (List StatPair))
  deriving Repr

/-- `fetch_solved_questions` (fetcher.py 85-132).  `raise_for_status` raises
`HTTPError` for 4xx/5xx, converted to an authentication error for 401/403 and
re-raised otherwise; network errors and parse failures re-raise; only a
successfully parsed non-error response yields a list. -/
def fetch_solved_questions (o : SolvedOutcome) :
    Except String (List SolvedQuestion) :=
  match o with
  | .netErr m => .error ("Network error fetching solved questions: " ++ m)
  | .resp status body =>
    if 400 ≤ status ∧ status < 600 then
      if status = 401 ∨ status = 403 then
        .error ("Authentication failed fetching solved questions (Status "
          ++ toString status ++ "). Check cookies.")
      else
        .error ("HTTP error fetching solved questions (Status "
          ++ toString status ++ ")")
    else
      match body with
      | none => .error "Failed to parse solved questions list"
      | some pairs => .ok (buildQuestions pairs)

/-! ## src/fetcher.py: profile stats, process_data; main.py: main -/

/-- One entry of `acSubmissionNum`; `count` is absent ↦ the `.get` default 0. -/
structure ACItem where
  difficulty : Option String
  count : Option Int
  deriving Repr

/-- The `matchedUser` object; `submitStats = none` models a falsy
`submitStats` (the `acSubmissionNum` `.get` default `[]` is folded in). -/
structure MatchedUser where
  submitStats : Option (List ACItem)
  deriving Repr

/-- The per-tier fold of process_data (fetcher.py 274-280): state is
`(easy, medium, hard, total)`; a tier item overwrites its slot but always
adds to the running total; other difficulties (e.g. `"All"`) are ignored. -/
def procStatsGo : List ACItem → Int → Int → Int → Int → Int × Int × Int × Int
  | [], e, m, h, t => (e, m, h, t)
  | it :: rest, e, m, h, t =>
    let c := it.count.getD 0
    match it.difficulty with
    | none => procStatsGo rest e m h t
    | some d =>
      if d = "Easy" then procStatsGo rest c m h (t + c)
      else if d = "Medium" then procStatsGo rest e c h (t + c)
      else if d = "Hard" then procStatsGo rest e m c (t + c)
      else procStatsGo rest e m h t

/-- The `profile_stats` object of the export (fetcher.py 316-321). -/
structure ProfileStatsOut where
  total_solved : Int
  easy : Int
  medium : Int
  hard : Int
  deriving Repr, DecidableEq

/-- One entry of the export's `problems` list (fetcher.py 299-306). -/
structure ProblemOut where
  title : String
  slug : String
  difficulty : String
  description : String
  tags : List String
  submissions : List SubRecordOut
  deriving Repr, DecidableEq

/-- The export document (fetcher.py 315-323). -/
structure ExportDoc where
  profile_stats : ProfileStatsOut
  problems : List ProblemOut
  deriving Repr

/-- `process_data` (fetcher.py 268-323).  The network is abstracted by
per-slug environments: `subsEnv` feeds each `fetch_submissions_for_question`
call, `scrapeCodeEnv` the `scrape_submission_code` results, `gqlEnv` and
`pageEnv` each `fetch_problem_details` call.  The `problem_details.get`
defaults at lines 300-304 never fire because `fetch_problem_details` returns
every key on all paths, so each field comes from the details record. -/
def process_data (solved : List SolvedQuestion) (profile : Option MatchedUser)
    (subsEnv : String → SubsOutcome) (scrapeCodeEnv : String → Option String)
    (gqlEnv : String → PyResult QDResp) (pageEnv : String → ProbPage) :
    ExportDoc :=
  let st :=
    match profile with
    | none => ((0 : Int), (0 : Int), (0 : Int), (0 : Int))
    | some mu =>
      match mu.submitStats with
      | none => ((0 : Int), (0 : Int), (0 : Int), (0 : Int))
      | some items => procStatsGo items 0 0 0 0
  { profile_stats :=
      { total_solved := st.2.2.2, easy := st.1, medium := st.2.1,
        hard := st.2.2.1 }
    problems := solved.map (fun q =>
      let subs := fetch_submissions_for_question (subsEnv q.slug) scrapeCodeEnv
      let det := fetch_problem_details q.slug (gqlEnv q.slug) (pageEnv q.slug)
      { title := det.title, slug := q.slug, difficulty := det.difficulty,
        description := det.description, tags := det.tags,
        submissions := subs }) }

/-- The `userStatus` connection test (fetcher.py 30-48): `hasData` models a
truthy `response_data.get("data")`, `isSignedIn` the nested
`["userStatus"]["isSignedIn"]` flag. -/
structure USResp where
  hasData : Bool
  isSignedIn : Bool
  deriving Repr

def authNotSignedInMsg : String :=
  "Authentication failed or user not signed in (checked via GraphQL)."

/-- `test_connection` (fetcher.py 30-48): the locally raised authentication
exception is caught by the function's own handler and re-wrapped; other
exceptions are wrapped depending on whether their text mentions
authentication failure. -/
def test_connection (r : PyResult USResp) : Except String Unit :=
  match r with
  | .value resp =>
    if !resp.hasData || !resp.isSignedIn then
      .error ("Authentication failed during connection test: "
        ++ authNotSignedInMsg ++ ". Check cookies.")
    else .ok ()
  | .raised e =>
    if pyIn "Authentication failed" e then
      .error ("Authentication failed during connection test: " ++ e
        ++ ". Check cookies.")
    else .error ("API Connection Test Failed: " ++ e)
  | .noneReturn =>
    .error ("API Connection Test Failed: " ++ noneGetAttrMsg)

/-- The profile-stats GraphQL envelope as tested at fetcher.py line 71. -/
structure PSResp where
  hasErrorsOrNoData : Bool
  matchedUser : Option MatchedUser
  deriving Repr

/-- `fetch_profile_stats` (fetcher.py 50-82): any failure re-raises wrapped;
only a well-formed response yields the `matchedUser` stats object. -/
def fetch_profile_stats (r : PyResult PSResp) : Except String MatchedUser :=
  match r with
  | .value resp =>
    match resp.matchedUser with
    | none => .error "Failed to fetch profile stats: GraphQL error"
    | some mu =>
      if resp.hasErrorsOrNoData then
        .error "Failed to fetch profile stats: GraphQL error"
      else .ok mu
  | .raised e => .error ("Failed to fetch profile stats: " ++ e)
  | .noneReturn =>
    .error ("Failed to fetch profile stats: " ++ noneGetAttrMsg)

/-- `main` (main.py 22-52): stages run in order inside one `try`; any raised
exception prints to stderr and exits 1; on success the export document is
serialized and the process exits 0.  Returns (exit code, emitted export). -/
def mainRun (conn : PyResult USResp) (ps : PyResult PSResp)
    (solvedO : SolvedOutcome) (subsEnv : String → SubsOutcome)
    (scrapeCodeEnv : String → Option String)
    (gqlEnv : String → PyResult QDResp) (pageEnv : String → ProbPage) :
    Nat × Option ExportDoc :=
  match test_connection conn with
  | .error _ => (1, none)
  | .ok _ =>
    match fetch_profile_stats ps with
    | .error _ => (1, none)
    | .ok stats =>
      match fetch_solved_questions solvedO with
      | .error _ => (1, none)
      | .ok qs =>
        (0, some (process_data qs (some stats) subsEnv scrapeCodeEnv
          gqlEnv pageEnv))

/-! ### Example documents -/

/-- The parsed form of `"<pre>code</pre><p>Hello   world</p>"`. -/
def exDoc : HForest :=
  .cons (.elem "pre" (.cons (.text "code") .nil))
    (.cons (.elem "p" (.cons (.text "Hello   world") .nil)) .nil)

/-- A document whose text carries a run of blank lines. -/
def blankDoc : HForest :=
  .cons (.elem "p" (.cons (.text "Start\n\n\n\nEnd") .nil)) .nil

/-- A document whose text carries leading and trailing whitespace. -/
def padDoc : HForest := .cons (.text "  Hi  ") .nil

/-- The record the merge builds for `tieSub idv` (code embedded, so no
scrape). -/
def tieRec (idv : String) : SubRecordOut :=
  { status := "Accepted", timestamp := "100", runtime := "50 ms"
    memory := "10 MB", language := "python3", submission_id := idv
    code := "print(1)" }

/-- A solved question whose enumeration-time title and difficulty differ
from the slug-derived defaults. -/
def qTwoSum : SolvedQuestion :=
  { slug := "two-sum", title := "Two Sum", difficulty := "Easy" }

/-- A submissions environment answering one accepted submission. -/
def envSub1 : String → SubsOutcome :=
  fun _ => SubsOutcome.resp 200 (some [tieSub "1001"])

/-- A GraphQL details environment that reports errors (soft failure). -/
def gqlFail : String → PyResult QDResp :=
  fun _ => PyResult.value { hasErrorsOrNoData := true, question := none }

/-- A problem-page environment whose fetch raises. -/
def pageFail : String → ProbPage := fun _ => ProbPage.fetchErr

/-- A concrete run of `process_data` over one solved question with failing
details paths. -/
def exportEx : ExportDoc :=
  process_data [qTwoSum] none envSub1 scrapeNone gqlFail pageFail

/-- The problem record `exportEx` contains. -/
def probEx : ProblemOut :=
  { title := "two-sum", slug := "two-sum", difficulty := "Unknown"
    description := "", tags := [], submissions := [tieRec "1001"] }

/-- A signed-in `userStatus` response. -/
def usOk : PyResult USResp :=
  PyResult.value { hasData := true, isSignedIn := true }

/-- A well-formed profile-stats response with empty submit stats. -/
def psOk : PyResult PSResp :=
  PyResult.value
    { hasErrorsOrNoData := false, matchedUser := some { submitStats := some [] } }

/-- An `acSubmissionNum` list in which the `Easy` tier appears twice. -/
def dupProfile : MatchedUser :=
  { submitStats := some
      [{ difficulty := some "Easy", count := some 5 },
       { difficulty := some "Easy", count := some 3 }] }

/-- A well-formed `acSubmissionNum` list, including an inconsistent
pre-summed `All` entry. -/
def okProfile : MatchedUser :=
  { submitStats := some
      [{ difficulty := some "Easy", count := some 5 },
       { difficulty := some "Medium", count := some 3 },
       { difficulty := some "Hard", count := some 2 },
       { difficulty := some "All", count := some 100 }] }

/-- A tier difficulty occurs at most once among the response items. -/
def tierOnce (items : List ACItem) (d : String) : Prop :=
  (items.filter (fun it => it.difficulty = some d)).length ≤ 1

/-- The request-level failures of `fetch_submissions_for_question`:
authentication (403), rate limit (429), other HTTP error, network error, or
an unparseable body. -/
def subsFetchFails : SubsOutcome → Prop
  | .netErr _ => True
  | .resp status body =>
    status = 403 ∨ status = 429 ∨ (400 ≤ status ∧ status < 600) ∨ body = none

/-! ### Normalizer lemmas -/

/-- Scanner for the presence of two adjacent spaces. -/
def hasDoubleSpace : List Char → Bool
  | a :: b :: t => (a = ' ' && b = ' ') || hasDoubleSpace (b :: t)
  | _ => false

mutual
/-- No `pre` element anywhere in a node's subtree. -/
def preFreeN : HNode → Bool
  | .text _ => true
  | .elem tag cs => decide (tag ≠ "pre") && preFreeF cs
/-- No `pre` element anywhere in a forest. -/
def preFreeF : HForest → Bool
  | .nil => true
  | .cons n f => preFreeN n && preFreeF f
end

theorem preFreeF_hAppend : ∀ (f g : HForest), preFreeF f = true →
    preFreeF g = true → preFreeF (hAppend f g) = true
  | .nil, g, _, hg => by simpa [hAppend] using hg
  | .cons n f, g, hf, hg => by
    simp only [preFreeF, Bool.and_eq_true] at hf
    simp only [hAppend, preFreeF, Bool.and_eq_true]
    exact ⟨hf.1, preFreeF_hAppend f g hf.2 hg⟩

mutual
theorem preFreeN_removePreN : ∀ (n : HNode), preFreeF (removePreN n) = true
  | .text s => by simp [removePreN, preFreeF, preFreeN]
  | .elem tag cs => by
    by_cases htag : tag = "pre"
    · simp [removePreN, htag, preFreeF]
    · have hcs := preFreeF_removePreF cs
      simp [removePreN, htag, preFreeF, preFreeN, hcs]
theorem preFreeF_removePreF : ∀ (f : HForest), preFreeF (removePreF f) = true
  | .nil => rfl
  | .cons n f =>
    preFreeF_hAppend _ _ (preFreeN_removePreN n) (preFreeF_removePreF f)
end

theorem csGo_true_head : ∀ (l : List Char) (c : Char) (t : List Char),
    csGo true l = c :: t → c ≠ ' '
  | [], c, t, h => by simp [csGo] at h
  | a :: rest, c, t, h => by
    by_cases ha : a = ' '
    · rw [show csGo true (a :: rest) = csGo true rest by simp [csGo, ha]] at h
      exact csGo_true_head rest c t h
    · rw [show csGo true (a :: rest) = a :: csGo false rest by
        simp [csGo, ha]] at h
      cases h
      exact ha

theorem hasDoubleSpace_csGo (l : List Char) : ∀ (s : Bool),
    hasDoubleSpace (csGo s l) = false := by
  induction l with
  | nil => intro s; rfl
  | cons a rest ih =>
    intro s
    by_cases ha : a = ' '
    · subst ha
      cases s with
      | true =>
        rw [show csGo true (' ' :: rest) = csGo true rest by simp [csGo]]
        exact ih true
      | false =>
        rw [show csGo false (' ' :: rest) = ' ' :: csGo true rest by
          simp [csGo]]
        rcases he : csGo true rest with _ | ⟨b, t⟩
        · rfl
        · have hb : b ≠ ' ' := csGo_true_head rest b t he
          have hrest := ih true
          rw [he] at hrest
          simp [hasDoubleSpace, hb, hrest]
    · rw [show csGo s (a :: rest) = a :: csGo false rest by simp [csGo, ha]]
      rcases he : csGo false rest with _ | ⟨b, t⟩
      · rfl
      · have hrest := ih false
        rw [he] at hrest
        simp [hasDoubleSpace, ha, hrest]

theorem hasDoubleSpace_tail (a : Char) (l : List Char)
    (h : hasDoubleSpace (a :: l) = false) : hasDoubleSpace l = false := by
  cases l with
  | nil => rfl
  | cons b t =>
    rw [hasDoubleSpace, Bool.or_eq_false_iff] at h
    exact h.2

theorem hasDoubleSpace_suffix (l t : List Char) (hs : t <:+ l)
    (h : hasDoubleSpace l = false) : hasDoubleSpace t = false := by
  obtain ⟨u, rfl⟩ := hs
  induction u with
  | nil => simpa using h
  | cons a u ih => exact ih (hasDoubleSpace_tail a _ h)

theorem hasDoubleSpace_append_left (l t : List Char)
    (h : hasDoubleSpace (l ++ t) = false) : hasDoubleSpace l = false := by
  induction l with
  | nil => rfl
  | cons a l ih =>
    cases l with
    | nil => rfl
    | cons b u =>
      rw [List.cons_append, List.cons_append, hasDoubleSpace,
        Bool.or_eq_false_iff] at h
      rw [hasDoubleSpace, Bool.or_eq_false_iff]
      exact ⟨h.1, ih (by simpa using h.2)⟩

/-- `pyStrip l` together with the dropped trailing run reassembles the
front-trimmed list. -/
theorem pyStrip_append_eq (l : List Char) :
    ∃ u : List Char, pyStrip l ++ u = l.dropWhile (fun c => isPySpace c) := by
  have hsuf : (l.dropWhile (fun c => isPySpace c)).reverse.dropWhile
      (fun c => isPySpace c) <:+ (l.dropWhile (fun c => isPySpace c)).reverse :=
    List.dropWhile_suffix _
  obtain ⟨u, hu⟩ := hsuf
  refine ⟨u.reverse, ?_⟩
  have h3 := congrArg List.reverse hu
  rw [List.reverse_append, List.reverse_reverse] at h3
  exact h3

theorem hasDoubleSpace_pyStrip (l : List Char)
    (h : hasDoubleSpace l = false) : hasDoubleSpace (pyStrip l) = false := by
  have h1 : hasDoubleSpace (l.dropWhile (fun c => isPySpace c)) = false :=
    hasDoubleSpace_suffix l _ (List.dropWhile_suffix _) h
  obtain ⟨u, hu⟩ := pyStrip_append_eq l
  rw [← hu] at h1
  exact hasDoubleSpace_append_left _ _ h1

theorem head_dropWhile_not (p : Char → Bool) (l : List Char) (c : Char)
    (h : (l.dropWhile p).head? = some c) : p c = false := by
  induction l with
  | nil => simp [List.dropWhile] at h
  | cons a t ih =>
    by_cases ha : p a
    · rw [List.dropWhile_cons, if_pos ha] at h
      exact ih h
    · rw [List.dropWhile_cons, if_neg ha] at h
      cases h
      simpa using ha

/-- The first character of a stripped string is not Python whitespace. -/
theorem pyStrip_head (l : List Char) (c : Char)
    (h : (pyStrip l).head? = some c) : isPySpace c = false := by
  have h2 : ((l.dropWhile (fun c => isPySpace c)).reverse.dropWhile
      (fun c => isPySpace c)).getLast? = some c := by
    rw [← List.head?_reverse]
    exact h
  have hne : (l.dropWhile (fun c => isPySpace c)).reverse.dropWhile
      (fun c => isPySpace c) ≠ [] := by
    intro h0
    rw [h0] at h2
    simp at h2
  have hsuf : (l.dropWhile (fun c => isPySpace c)).reverse.dropWhile
      (fun c => isPySpace c) <:+ (l.dropWhile (fun c => isPySpace c)).reverse :=
    List.dropWhile_suffix _
  obtain ⟨u, hu⟩ := hsuf
  have h3 : (l.dropWhile (fun c => isPySpace c)).reverse.getLast? = some c := by
    rw [← hu, List.getLast?_append_of_ne_nil u hne]
    exact h2
  rw [List.getLast?_reverse] at h3
  exact head_dropWhile_not _ _ _ h3

/-- The last character of a stripped string is not Python whitespace. -/
theorem pyStrip_last (l : List Char) (c : Char)
    (h : (pyStrip l).getLast? = some c) : isPySpace c = false := by
  rw [pyStrip, List.getLast?_reverse] at h
  exact head_dropWhile_not _ _ _ h

/-! ### Decimal printing and re-parsing -/

theorem digitChar_isDigit (d : Nat) (h : d < 10) :
    (Char.ofNat ('0'.toNat + d)).isDigit = true := by
  interval_cases d <;> decide

theorem digitChar_val (d : Nat) (h : d < 10) :
    (Char.ofNat ('0'.toNat + d)).toNat - '0'.toNat = d := by
  interval_cases d <;> decide

theorem natDigsAux_append : ∀ (n : Nat) (acc : List Char),
    natDigsAux n acc = natDigsAux n [] ++ acc
  | 0, acc => by simp [natDigsAux]
  | n + 1, acc => by
    rw [natDigsAux, natDigsAux_append ((n + 1) / 10)]
    conv_rhs => rw [natDigsAux, natDigsAux_append ((n + 1) / 10)]
    simp
decreasing_by all_goals exact Nat.div_lt_self (Nat.succ_pos n) (by omega)

theorem natDigsAux_digits : ∀ (n : Nat) (acc : List Char),
    (∀ c ∈ acc, c.isDigit = true) → ∀ c ∈ natDigsAux n acc, c.isDigit = true
  | 0, acc, hacc => by simpa [natDigsAux] using hacc
  | n + 1, acc, hacc => by
    rw [natDigsAux]
    refine natDigsAux_digits ((n + 1) / 10) _ ?_
    intro c hc
    rcases List.mem_cons.1 hc with rfl | hc2
    · exact digitChar_isDigit _ (Nat.mod_lt _ (by omega))
    · exact hacc c hc2
decreasing_by all_goals exact Nat.div_lt_self (Nat.succ_pos n) (by omega)

theorem natDigs_val : ∀ (n : Nat), n ≠ 0 →
    (natDigsAux n []).foldl (fun v c => 10 * v + (c.toNat - '0'.toNat)) 0 = n
  | 0, h => absurd rfl h
  | n + 1, _ => by
    rw [natDigsAux, natDigsAux_append, List.foldl_append]
    by_cases h10 : (n + 1) / 10 = 0
    · have hlt : n + 1 < 10 := by
        rcases Nat.lt_or_ge (n + 1) 10 with h | h
        · exact h
        · exact absurd h10 (by

            have : 1 ≤ (n + 1) / 10 := (Nat.le_div_iff_mul_le (by omega)).2 (by omega)
            omega)
      rw [h10]
      simp only [natDigsAux, List.foldl_nil, List.foldl_cons]
      rw [Nat.mul_zero, Nat.zero_add, digitChar_val _ (Nat.mod_lt _ (by omega))]
      exact Nat.mod_eq_of_lt hlt
    · rw [natDigs_val ((n + 1) / 10) h10]
      simp only [List.foldl_cons, List.foldl_nil]
      rw [digitChar_val _ (Nat.mod_lt _ (by omega))]
      exact Nat.div_add_mod (n + 1) 10
decreasing_by all_goals exact Nat.div_lt_self (Nat.succ_pos n) (by omega)

theorem natToStrL_digits (n : Nat) : ∀ c ∈ natToStrL n, c.isDigit = true := by
  unfold natToStrL
  by_cases h : n = 0
  · rw [if_pos h]; intro c hc; simp at hc; subst hc; decide
  · rw [if_neg h]
    exact natDigsAux_digits n [] (by intro c hc; simp at hc)

theorem natToStrL_ne_nil (n : Nat) : natToStrL n ≠ [] := by
  unfold natToStrL
  by_cases h : n = 0
  · rw [if_pos h]; simp
  · rw [if_neg h]
    obtain ⟨m, rfl⟩ : ∃ m, n = m + 1 := ⟨n - 1, by omega⟩
    rw [natDigsAux, natDigsAux_append]
    simp

theorem natToStrL_val (n : Nat) :
    (natToStrL n).foldl (fun v c => 10 * v + (c.toNat - '0'.toNat)) 0 = n := by
  unfold natToStrL
  by_cases h : n = 0
  · rw [if_pos h, h]; decide
  · rw [if_neg h]; exact natDigs_val n h

theorem isDigit_not_pySpace (c : Char) (h : c.isDigit = true) :
    isPySpace c = false := by
  rcases hc : isPySpace c
  · rfl
  · exfalso
    unfold isPySpace at hc
    simp only [Bool.or_eq_true, decide_eq_true_eq] at hc
    rcases hc with ((((h1 | h1) | h1) | h1) | h1) | h1 <;> subst h1 <;>
      exact absurd h (by decide)

theorem isDigit_ne_plus (c : Char) (h : c.isDigit = true) : c ≠ '+' := by
  intro h1; subst h1; exact absurd h (by decide)

theorem isDigit_ne_minus (c : Char) (h : c.isDigit = true) : c ≠ '-' := by
  intro h1; subst h1; exact absurd h (by decide)

theorem takeWhile_all_eq (p : Char → Bool) :
    ∀ (l : List Char), (∀ c ∈ l, p c = true) → l.takeWhile p = l
  | [], _ => rfl
  | a :: t, h => by
    rw [List.takeWhile_cons, if_pos (h a (by simp))]
    rw [takeWhile_all_eq p t (fun c hc => h c (by simp [hc]))]

theorem dropWhile_all_eq (p : Char → Bool) :
    ∀ (l : List Char), (∀ c ∈ l, p c = true) → l.dropWhile p = []
  | [], _ => rfl
  | a :: t, h => by
    rw [List.dropWhile_cons, if_pos (h a (by simp))]
    exact dropWhile_all_eq p t (fun c hc => h c (by simp [hc]))

/-- Parsing back a printed nonnegative decimal. -/
theorem pyParseInt_digits (ds : List Char) (hne : ds ≠ [])
    (hdig : ∀ c ∈ ds, c.isDigit = true) :
    pyParseInt (String.mk ds) = some
      ((ds.foldl (fun v c => 10 * v + (c.toNat - '0'.toNat)) 0 : Nat) : Int) := by
  obtain ⟨c0, t, rfl⟩ : ∃ c0 t, ds = c0 :: t := by
    rcases ds with _ | ⟨c0, t⟩
    · exact absurd rfl hne
    · exact ⟨c0, t, rfl⟩
  have hc0 : c0.isDigit = true := hdig c0 (by simp)
  have hsp : isPySpace c0 = false := isDigit_not_pySpace c0 hc0
  have hsign : pySign (c0 :: t) = (false, c0 :: t) := by
    rw [pySign, if_neg (isDigit_ne_plus c0 hc0),
      if_neg (isDigit_ne_minus c0 hc0)]
  have hcond : ¬(isPySpace c0 = true) := by simp [hsp]
  unfold pyParseInt
  rw [show (String.mk (c0 :: t)).data = c0 :: t from rfl]
  rw [List.dropWhile_cons, if_neg hcond, hsign]
  simp only [takeWhile_all_eq _ _ hdig, dropWhile_all_eq _ _ hdig]
  simp

/-- `int(str(i)) == i`. -/
theorem pyParseInt_pyStrOfInt (i : Int) : pyParseInt (pyStrOfInt i) = some i := by
  by_cases h : i < 0
  · rw [pyStrOfInt, if_pos h]
    have habs : i.natAbs ≠ 0 := by
      intro h0
      have := Int.natAbs_eq_zero.1 h0
      omega
    have hsign : pySign ('-' :: natToStrL i.natAbs)
        = (true, natToStrL i.natAbs) := by
      rw [pySign, if_neg (by decide), if_pos rfl]
    have hcond : ¬(isPySpace '-' = true) := by decide
    unfold pyParseInt
    rw [show (String.mk ('-' :: natToStrL i.natAbs)).data
        = '-' :: natToStrL i.natAbs from rfl]
    rw [List.dropWhile_cons, if_neg hcond, hsign]
    simp only [takeWhile_all_eq _ _ (natToStrL_digits i.natAbs),
      dropWhile_all_eq _ _ (natToStrL_digits i.natAbs)]
    have hne := natToStrL_ne_nil i.natAbs
    simp only [List.isEmpty_iff, List.all_nil, if_neg hne, if_true,
      if_pos rfl]
    rw [natToStrL_val]
    have hval : -(i.natAbs : Int) = i := by omega
    rw [hval]
  · rw [pyStrOfInt, if_neg h]
    rw [pyParseInt_digits _ (natToStrL_ne_nil i.natAbs) (natToStrL_digits i.natAbs)]
    rw [natToStrL_val]
    have : (i.natAbs : Int) = i := by omega
    rw [this]

/-- Any timestamp value that `int()` accepts prints to a string that `int()`
parses back to the same value (fetcher.py stores `str(sub["timestamp"])` and
later re-parses it with `int(...)` at line 177). -/
theorem pyParseInt_pyStrOfTs (tsv : TsVal) (t : Int)
    (h : pyIntOfTs tsv = some t) : pyParseInt (pyStrOfTs tsv) = some t := by
  cases tsv with
  | intv n =>
    simp only [pyIntOfTs, Option.some.injEq] at h
    subst h
    exact pyParseInt_pyStrOfInt n
  | strv s => exact h
  | nullv => exact absurd h (by simp [pyIntOfTs])

/-! ### Dictionary lemmas -/

theorem dictFind_dictSet_self {α : Type} : ∀ (d : List (String × α)) (k : String) (v : α),
    dictFind (dictSet d k v) k = some v
  | [], k, v => by simp [dictSet, dictFind]
  | (k0, w) :: t, k, v => by
    by_cases hk : k0 = k
    · subst hk; simp [dictSet, dictFind]
    · rw [dictSet, if_neg hk, dictFind, if_neg hk]
      exact dictFind_dictSet_self t k v

theorem dictFind_dictSet_other {α : Type} : ∀ (d : List (String × α)) (k k' : String) (v : α),
    k' ≠ k → dictFind (dictSet d k v) k' = dictFind d k'
  | [], k, k', v, h => by
    have hne : (k = k') = False := eq_false (fun hh => h hh.symm)
    simp [dictSet, dictFind, hne]
  | (k0, w) :: t, k, k', v, h => by
    by_cases hk : k0 = k
    · subst hk
      rw [dictSet, if_pos rfl, dictFind, dictFind,
        if_neg (fun hh => h hh.symm), if_neg (fun hh => h hh.symm)]
    · rw [dictSet, if_neg hk, dictFind, dictFind]
      by_cases hk' : k0 = k'
      · rw [if_pos hk', if_pos hk']
      · rw [if_neg hk', if_neg hk']
        exact dictFind_dictSet_other t k k' v h

theorem mem_dictSet {α : Type} : ∀ (d : List (String × α)) (k : String) (v : α)
    (kv : String × α), kv ∈ dictSet d k v → kv ∈ d ∨ kv = (k, v)
  | [], k, v, kv, h => by
    rw [dictSet] at h
    right
    simpa using h
  | (k0, w) :: t, k, v, kv, h => by
    rw [dictSet] at h
    by_cases hk : k0 = k
    · rw [if_pos hk] at h
      rcases List.mem_cons.1 h with rfl | h2
      · right; rw [hk]
      · left; exact List.mem_cons_of_mem _ h2
    · rw [if_neg hk] at h
      rcases List.mem_cons.1 h with rfl | h2
      · left; exact List.mem_cons_self _ _
      · rcases mem_dictSet t k v kv h2 with h3 | h3
        · left; exact List.mem_cons_of_mem _ h3
        · right; exact h3

theorem dKeysNodup_dictSet {v : SubRecordOut} :
    ∀ (d : List (String × SubRecordOut)) (k : String),
    dKeysNodup d → dKeysNodup (dictSet d k v)
  | [], k, _ => by simp [dictSet, dKeysNodup]
  | (k0, w) :: t, k, h => by
    rw [dKeysNodup, List.map_cons, List.nodup_cons] at h
    by_cases hk : k0 = k
    · rw [dictSet, if_pos hk, dKeysNodup, List.map_cons, List.nodup_cons]
      exact h
    · rw [dictSet, if_neg hk, dKeysNodup, List.map_cons, List.nodup_cons]
      refine ⟨?_, dKeysNodup_dictSet t k h.2⟩
      intro hmem
      rcases List.mem_map.1 hmem with ⟨kv, hkv, hfst⟩
      rcases mem_dictSet t k v kv hkv with h3 | h3
      · exact h.1 (List.mem_map.2 ⟨kv, h3, hfst⟩)
      · subst h3; exact hk hfst.symm

theorem dictFind_of_mem {α : Type} : ∀ (d : List (String × α)) (k : String) (v : α),
    (d.map Prod.fst).Nodup → (k, v) ∈ d → dictFind d k = some v
  | [], _, _, _, h => by simp at h
  | (k0, w) :: t, k, v, hnd, h => by
    rw [List.map_cons, List.nodup_cons] at hnd
    rcases List.mem_cons.1 h with heq | h2
    · cases heq
      rw [dictFind, if_pos rfl]
    · by_cases hk : k0 = k
      · subst hk
        exact absurd (List.mem_map.2 ⟨(k0, v), h2, rfl⟩) hnd.1
      · rw [dictFind, if_neg hk]
        exact dictFind_of_mem t k v hnd.2 h2

/-! ### Merge-loop lemmas -/

/-- Every binding in a successful merge result either was already present or
originates from an accepted, truthy-language, parseable-timestamp submission
of the input, stored as exactly the record the source builds for it. -/
theorem mergeLoop_origin (scrape : String → Option String) :
    ∀ (rest : List RawSub) (acc out : List (String × SubRecordOut)),
    mergeLoop scrape rest acc = .ok out →
    ∀ kv ∈ out, kv ∈ acc ∨
      ∃ sub ∈ rest, ∃ tsv ts,
        sub.status_display = some "Accepted" ∧ sub.lang = some kv.1 ∧
        kv.1 ≠ "" ∧ sub.timestamp = some tsv ∧ pyIntOfTs tsv = some ts ∧
        kv.2 = mkRec scrape kv.1 tsv sub
  | [], acc, out, h, kv, hkv => by
    rw [mergeLoop] at h
    cases h
    exact Or.inl hkv
  | sub :: rest, acc, out, h, kv, hkv => by
    rw [mergeLoop] at h
    by_cases hst : sub.status_display ≠ some "Accepted"
    · rw [if_pos hst] at h
      rcases mergeLoop_origin scrape rest acc out h kv hkv with h2 | ⟨s, hs, rest2⟩
      · exact Or.inl h2
      · exact Or.inr ⟨s, List.mem_cons_of_mem _ hs, rest2⟩
    · rw [if_neg hst] at h
      push_neg at hst
      rcases hlang : sub.lang with _ | lang
      · simp only [hlang] at h
        rcases mergeLoop_origin scrape rest acc out h kv hkv with h2 | ⟨s, hs, rest2⟩
        · exact Or.inl h2
        · exact Or.inr ⟨s, List.mem_cons_of_mem _ hs, rest2⟩
      · simp only [hlang] at h
        by_cases hle : lang = ""
        · rw [if_pos hle] at h
          rcases mergeLoop_origin scrape rest acc out h kv hkv with h2 | ⟨s, hs, rest2⟩
          · exact Or.inl h2
          · exact Or.inr ⟨s, List.mem_cons_of_mem _ hs, rest2⟩
        · rw [if_neg hle] at h
          rcases hts : sub.timestamp with _ | tsv
          · simp only [hts] at h
            exact Except.noConfusion h
          · simp only [hts] at h
            rcases hint : pyIntOfTs tsv with _ | ts
            · simp only [hint] at h
              rcases mergeLoop_origin scrape rest acc out h kv hkv with h2 | ⟨s, hs, rest2⟩
              · exact Or.inl h2
              · exact Or.inr ⟨s, List.mem_cons_of_mem _ hs, rest2⟩
            · simp only [hint] at h
              rcases hfind : dictFind acc lang with _ | prev
              · simp only [hfind] at h
                rcases mergeLoop_origin scrape rest _ out h kv hkv with h2 | ⟨s, hs, rest2⟩
                · rcases mem_dictSet acc lang _ kv h2 with h3 | h3
                  · exact Or.inl h3
                  · subst h3
                    exact Or.inr ⟨sub, List.mem_cons_self _ _, tsv, ts,
                      hst, hlang, hle, hts, hint, rfl⟩
                · exact Or.inr ⟨s, List.mem_cons_of_mem _ hs, rest2⟩
              · simp only [hfind] at h
                rcases hpp : pyParseInt prev.timestamp with _ | p
                · simp only [hpp] at h
                  exact Except.noConfusion h
                · simp only [hpp] at h
                  by_cases hlt : p < ts
                  · rw [decide_eq_true hlt] at h
                    rcases mergeLoop_origin scrape rest _ out h kv hkv with h2 | ⟨s, hs, rest2⟩
                    · rcases mem_dictSet acc lang _ kv h2 with h3 | h3
                      · exact Or.inl h3
                      · subst h3
                        exact Or.inr ⟨sub, List.mem_cons_self _ _, tsv, ts,
                          hst, hlang, hle, hts, hint, rfl⟩
                    · exact Or.inr ⟨s, List.mem_cons_of_mem _ hs, rest2⟩
                  · rw [decide_eq_false hlt] at h
                    rcases mergeLoop_origin scrape rest acc out h kv hkv with h2 | ⟨s, hs, rest2⟩
                    · exact Or.inl h2
                    · exact Or.inr ⟨s, List.mem_cons_of_mem _ hs, rest2⟩

/-- A successful merge keeps its dictionary keys pairwise distinct. -/
theorem mergeLoop_nodup (scrape : String → Option String) :
    ∀ (rest : List RawSub) (acc out : List (String × SubRecordOut)),
    dKeysNodup acc → mergeLoop scrape rest acc = .ok out → dKeysNodup out
  | [], acc, out, hnd, h => by
    rw [mergeLoop] at h
    cases h
    exact hnd
  | sub :: rest, acc, out, hnd, h => by
    rw [mergeLoop] at h
    by_cases hst : sub.status_display ≠ some "Accepted"
    · rw [if_pos hst] at h
      exact mergeLoop_nodup scrape rest acc out hnd h
    · rw [if_neg hst] at h
      rcases hlang : sub.lang with _ | lang
      · simp only [hlang] at h
        exact mergeLoop_nodup scrape rest acc out hnd h
      · simp only [hlang] at h
        by_cases hle : lang = ""
        · rw [if_pos hle] at h
          exact mergeLoop_nodup scrape rest acc out hnd h
        · rw [if_neg hle] at h
          rcases hts : sub.timestamp with _ | tsv
          · simp only [hts] at h
            exact Except.noConfusion h
          · simp only [hts] at h
            rcases hint : pyIntOfTs tsv with _ | ts
            · simp only [hint] at h
              exact mergeLoop_nodup scrape rest acc out hnd h
            · simp only [hint] at h
              rcases hfind : dictFind acc lang with _ | prev
              · simp only [hfind] at h
                exact mergeLoop_nodup scrape rest _ out
                  (dKeysNodup_dictSet acc lang hnd) h
              · simp only [hfind] at h
                rcases hpp : pyParseInt prev.timestamp with _ | p
                · simp only [hpp] at h
                  exact Except.noConfusion h
                · simp only [hpp] at h
                  by_cases hlt : p < ts
                  · rw [decide_eq_true hlt] at h
                    exact mergeLoop_nodup scrape rest _ out
                      (dKeysNodup_dictSet acc lang hnd) h
                  · rw [decide_eq_false hlt] at h
                    exact mergeLoop_nodup scrape rest acc out hnd h

/-! ### Candidate-status lemmas -/

theorem candTsOf_none_status {sub : RawSub} (lang : String)
    (h : sub.status_display ≠ some "Accepted") : candTsOf lang sub = none := by
  simp [candTsOf, h]

theorem candTsOf_none_nolang {sub : RawSub} (lang : String)
    (h : sub.lang = none) : candTsOf lang sub = none := by
  simp [candTsOf, h]

theorem candTsOf_none_elang {sub : RawSub} (lang : String)
    (h : sub.lang = some "") : candTsOf lang sub = none := by
  by_cases he : lang = ""
  · simp [candTsOf, he]
  · simp only [candTsOf, h]
    rw [if_neg]
    intro hcond
    simp only [Bool.and_eq_true, decide_eq_true_eq] at hcond
    exact he (Option.some.inj hcond.1.2).symm

theorem candTsOf_none_mismatch {sub : RawSub} {lang lang0 : String}
    (h : sub.lang = some lang0) (hne : lang ≠ lang0) :
    candTsOf lang sub = none := by
  simp only [candTsOf, h]
  rw [if_neg]
  intro hcond
  simp only [Bool.and_eq_true, decide_eq_true_eq] at hcond
  exact hne (Option.some.inj hcond.1.2).symm

theorem candTsOf_none_unparse {sub : RawSub} {lang0 : String} {tsv : TsVal}
    (h1 : sub.lang = some lang0) (hts : sub.timestamp = some tsv)
    (hint : pyIntOfTs tsv = none) (lang : String) :
    candTsOf lang sub = none := by
  by_cases he : lang = lang0
  · subst he
    simp [candTsOf, h1, hts, hint]
  · exact candTsOf_none_mismatch h1 he

theorem candTsOf_some {sub : RawSub} {lang0 : String} {tsv : TsVal} {ts : Int}
    (hst : sub.status_display = some "Accepted") (h1 : sub.lang = some lang0)
    (hle : lang0 ≠ "") (hts : sub.timestamp = some tsv)
    (hint : pyIntOfTs tsv = some ts) : candTsOf lang0 sub = some ts := by
  simp [candTsOf, hst, h1, hle, hts, hint]

/-- `sub.timestamp.getD .nullv` under a known present timestamp. -/
theorem getD_timestamp {sub : RawSub} {tsv : TsVal}
    (hts : sub.timestamp = some tsv) : sub.timestamp.getD .nullv = tsv := by
  rw [hts]; rfl

/-- `pickGo` skips a non-candidate. -/
theorem pickGo_cons_none {scrape : String → Option String} {lang : String}
    {sub : RawSub} (rest : List RawSub) (cur : Option (SubRecordOut × Int))
    (h : candTsOf lang sub = none) :
    pickGo scrape lang (sub :: rest) cur = pickGo scrape lang rest cur := by
  simp only [pickGo, h]

/-- `pickGo` adopts a candidate when no record is held yet. -/
theorem pickGo_cons_some_none {scrape : String → Option String} {lang : String}
    {sub : RawSub} {ts : Int} (rest : List RawSub)
    (h : candTsOf lang sub = some ts) :
    pickGo scrape lang (sub :: rest) none =
      pickGo scrape lang rest
        (some (mkRec scrape lang (sub.timestamp.getD .nullv) sub, ts)) := by
  simp only [pickGo, h]

/-- `pickGo` replaces the held record on a strictly greater timestamp. -/
theorem pickGo_cons_some_lt {scrape : String → Option String} {lang : String}
    {sub : RawSub} {ts bts : Int} {b : SubRecordOut} (rest : List RawSub)
    (h : candTsOf lang sub = some ts) (hlt : bts < ts) :
    pickGo scrape lang (sub :: rest) (some (b, bts)) =
      pickGo scrape lang rest
        (some (mkRec scrape lang (sub.timestamp.getD .nullv) sub, ts)) := by
  simp only [pickGo, h]
  rw [if_pos hlt]

/-- `pickGo` keeps the held record otherwise. -/
theorem pickGo_cons_some_ge {scrape : String → Option String} {lang : String}
    {sub : RawSub} {ts bts : Int} {b : SubRecordOut} (rest : List RawSub)
    (h : candTsOf lang sub = some ts) (hge : ¬bts < ts) :
    pickGo scrape lang (sub :: rest) (some (b, bts)) =
      pickGo scrape lang rest (some (b, bts)) := by
  simp only [pickGo, h]
  rw [if_neg hge]

theorem dictFind_mem {α : Type} : ∀ (d : List (String × α)) (k : String) (v : α),
    dictFind d k = some v → (k, v) ∈ d
  | [], _, _, h => by simp [dictFind] at h
  | (k0, w) :: t, k, v, h => by
    rw [dictFind] at h
    by_cases hk : k0 = k
    · rw [if_pos hk] at h
      cases h
      subst hk
      exact List.mem_cons_self _ _
    · rw [if_neg hk] at h
      exact List.mem_cons_of_mem _ (dictFind_mem t k v h)

/-! ### The merge loop computes a per-language pick -/

/-- The merge loop succeeds on inputs whose accepted truthy-language
submissions all carry a timestamp key, and its final dictionary is, per
language, the replay `pickGo` started from the corresponding initial slot. -/
theorem mergeLoop_find (scrape : String → Option String) :
    ∀ (rest : List RawSub) (acc : List (String × SubRecordOut)),
    (∀ sub ∈ rest, sub.status_display = some "Accepted" →
      truthyOpt sub.lang = true → sub.timestamp ≠ none) →
    (∀ kv ∈ acc, ∃ m, pyParseInt kv.2.timestamp = some m) →
    ∃ out, mergeLoop scrape rest acc = .ok out ∧
      ∀ (lang : String) (s0 : Option (SubRecordOut × Int)),
        stateMatches (dictFind acc lang) s0 →
        dictFind out lang = optFst (pickGo scrape lang rest s0)
  | [], acc, _, _ => by
    refine ⟨acc, rfl, ?_⟩
    intro lang s0 hsm
    rcases hd : dictFind acc lang with _ | r <;> rcases s0 with _ | ⟨b, m⟩ <;>
      rw [hd] at hsm <;> simp [stateMatches] at hsm <;>
      simp [pickGo, optFst, hd]
    exact hsm.1
  | sub :: rest, acc, hts0, hacc => by
    have htl : ∀ s ∈ rest, s.status_display = some "Accepted" →
        truthyOpt s.lang = true → s.timestamp ≠ none :=
      fun s hs => hts0 s (List.mem_cons_of_mem _ hs)
    rw [mergeLoop]
    by_cases hst : sub.status_display ≠ some "Accepted"
    · rw [if_pos hst]
      obtain ⟨out, heq, hinv⟩ := mergeLoop_find scrape rest acc htl hacc
      refine ⟨out, heq, ?_⟩
      intro lang s0 hsm
      rw [pickGo_cons_none rest s0 (candTsOf_none_status lang hst)]
      exact hinv lang s0 hsm
    · rw [if_neg hst]
      push_neg at hst
      rcases hlang : sub.lang with _ | lang0
      · simp only [hlang]
        obtain ⟨out, heq, hinv⟩ := mergeLoop_find scrape rest acc htl hacc
        refine ⟨out, heq, ?_⟩
        intro lang s0 hsm
        rw [pickGo_cons_none rest s0 (candTsOf_none_nolang lang hlang)]
        exact hinv lang s0 hsm
      · simp only [hlang]
        by_cases hle : lang0 = ""
        · rw [if_pos hle]
          subst hle
          obtain ⟨out, heq, hinv⟩ := mergeLoop_find scrape rest acc htl hacc
          refine ⟨out, heq, ?_⟩
          intro lang s0 hsm
          rw [pickGo_cons_none rest s0 (candTsOf_none_elang lang hlang)]
          exact hinv lang s0 hsm
        · rw [if_neg hle]
          rcases hts : sub.timestamp with _ | tsv
          · exact absurd hts (hts0 sub (List.mem_cons_self _ _) hst
              (by simp [truthyOpt, hlang, hle]))
          · simp only [hts]
            rcases hint : pyIntOfTs tsv with _ | ts
            · simp only [hint]
              obtain ⟨out, heq, hinv⟩ := mergeLoop_find scrape rest acc htl hacc
              refine ⟨out, heq, ?_⟩
              intro lang s0 hsm
              rw [pickGo_cons_none rest s0 (candTsOf_none_unparse hlang hts hint lang)]
              exact hinv lang s0 hsm
            · simp only [hint]
              rcases hfind : dictFind acc lang0 with _ | prev
              · simp only [hfind]
                have hacc2 : ∀ kv ∈ dictSet acc lang0 (mkRec scrape lang0 tsv sub),
                    ∃ m, pyParseInt kv.2.timestamp = some m := by
                  intro kv hkv
                  rcases mem_dictSet acc lang0 _ kv hkv with h3 | h3
                  · exact hacc kv h3
                  · subst h3
                    exact ⟨ts, pyParseInt_pyStrOfTs tsv ts hint⟩
                obtain ⟨out, heq, hinv⟩ := mergeLoop_find scrape rest _ htl hacc2
                refine ⟨out, heq, ?_⟩
                intro lang s0 hsm
                by_cases hl : lang = lang0
                · subst hl
                  rw [hfind] at hsm
                  rcases s0 with _ | ⟨b, m⟩
                  · rw [pickGo_cons_some_none rest
                      (candTsOf_some hst hlang hle hts hint), getD_timestamp hts]
                    refine hinv lang (some (mkRec scrape lang tsv sub, ts)) ?_
                    rw [dictFind_dictSet_self]
                    exact ⟨rfl, pyParseInt_pyStrOfTs tsv ts hint⟩
                  · exact absurd hsm (by simp [stateMatches])
                · rw [pickGo_cons_none rest s0 (candTsOf_none_mismatch hlang hl)]
                  refine hinv lang s0 ?_
                  rw [dictFind_dictSet_other acc lang0 lang _ hl]
                  exact hsm
              · simp only [hfind]
                obtain ⟨m0, hm0⟩ :=
                  hacc (lang0, prev) (dictFind_mem acc lang0 prev hfind)
                have hm0' : pyParseInt prev.timestamp = some m0 := hm0
                by_cases hlt : m0 < ts
                · simp only [hm0', decide_eq_true hlt]
                  have hacc2 : ∀ kv ∈ dictSet acc lang0 (mkRec scrape lang0 tsv sub),
                      ∃ m, pyParseInt kv.2.timestamp = some m := by
                    intro kv hkv
                    rcases mem_dictSet acc lang0 _ kv hkv with h3 | h3
                    · exact hacc kv h3
                    · subst h3
                      exact ⟨ts, pyParseInt_pyStrOfTs tsv ts hint⟩
                  obtain ⟨out, heq, hinv⟩ := mergeLoop_find scrape rest _ htl hacc2
                  refine ⟨out, heq, ?_⟩
                  intro lang s0 hsm
                  by_cases hl : lang = lang0
                  · subst hl
                    rw [hfind] at hsm
                    rcases s0 with _ | ⟨b, m⟩
                    · exact absurd hsm (by simp [stateMatches])
                    · obtain ⟨hb, hbm⟩ :
                          prev = b ∧ pyParseInt prev.timestamp = some m := hsm
                      have hmm : m0 = m := by
                        rw [hm0'] at hbm
                        exact Option.some.inj hbm
                      subst hmm
                      subst hb
                      rw [pickGo_cons_some_lt rest
                        (candTsOf_some hst hlang hle hts hint) hlt,
                        getD_timestamp hts]
                      refine hinv lang (some (mkRec scrape lang tsv sub, ts)) ?_
                      rw [dictFind_dictSet_self]
                      exact ⟨rfl, pyParseInt_pyStrOfTs tsv ts hint⟩
                  · rw [pickGo_cons_none rest s0 (candTsOf_none_mismatch hlang hl)]
                    refine hinv lang s0 ?_
                    rw [dictFind_dictSet_other acc lang0 lang _ hl]
                    exact hsm
                · simp only [hm0', decide_eq_false hlt]
                  obtain ⟨out, heq, hinv⟩ := mergeLoop_find scrape rest acc htl hacc
                  refine ⟨out, heq, ?_⟩
                  intro lang s0 hsm
                  by_cases hl : lang = lang0
                  · subst hl
                    rw [hfind] at hsm
                    rcases s0 with _ | ⟨b, m⟩
                    · exact absurd hsm (by simp [stateMatches])
                    · obtain ⟨hb, hbm⟩ :
                          prev = b ∧ pyParseInt prev.timestamp = some m := hsm
                      have hmm : m0 = m := by
                        rw [hm0'] at hbm
                        exact Option.some.inj hbm
                      subst hmm
                      rw [pickGo_cons_some_ge rest
                        (candTsOf_some hst hlang hle hts hint) hlt]
                      refine hinv lang (some (b, m0)) ?_
                      rw [hfind]
                      exact ⟨hb, hbm⟩
                  · rw [pickGo_cons_none rest s0 (candTsOf_none_mismatch hlang hl)]
                    exact hinv lang s0 hsm

/-! ### The pick is the first candidate achieving the maximum timestamp -/

theorem candTsOf_shape {lang : String} {sub : RawSub} {m : Int}
    (h : candTsOf lang sub = some m) :
    sub.status_display = some "Accepted" ∧ sub.lang = some lang ∧ lang ≠ "" ∧
    ∃ tsv, sub.timestamp = some tsv ∧ pyIntOfTs tsv = some m := by
  unfold candTsOf at h
  by_cases hcond : (decide (sub.status_display = some "Accepted")
      && decide (sub.lang = some lang) && decide (lang ≠ "")) = true
  · rw [if_pos hcond] at h
    simp only [Bool.and_eq_true, decide_eq_true_eq] at hcond
    rcases hts : sub.timestamp with _ | tsv
    · rw [hts] at h
      exact absurd h (by simp)
    · rw [hts] at h
      exact ⟨hcond.1.1, hcond.1.2, hcond.2, tsv, rfl, h⟩
  · rw [if_neg hcond] at h
    exact absurd h (by simp)

/-- Running `pickGo` from a held record `(b, bts)`: either the record
survives and every candidate of `rest` is at most `bts`, or the result is
the first candidate achieving the (strict) maximum over `bts` and all
candidate timestamps. -/
theorem pickGo_from_state (scrape : String → Option String) (lang : String) :
    ∀ (rest : List RawSub) (b : SubRecordOut) (bts : Int),
    (pickGo scrape lang rest (some (b, bts)) = some (b, bts) ∧
      ∀ s ∈ rest, ∀ t, candTsOf lang s = some t → t ≤ bts) ∨
    (∃ pre sub post tsv m, rest = pre ++ sub :: post ∧
      candTsOf lang sub = some m ∧ sub.timestamp = some tsv ∧ bts < m ∧
      pickGo scrape lang rest (some (b, bts)) =
        some (mkRec scrape lang tsv sub, m) ∧
      (∀ s ∈ pre, ∀ t, candTsOf lang s = some t → t < m) ∧
      (∀ s ∈ post, ∀ t, candTsOf lang s = some t → t ≤ m))
  | [], b, bts => Or.inl ⟨rfl, by simp⟩
  | s :: rest, b, bts => by
    rcases hc : candTsOf lang s with _ | t
    · rcases pickGo_from_state scrape lang rest b bts with ⟨heq, hall⟩ |
        ⟨pre, sub, post, tsv, m, hsplit, hcs, htsv, hbm, heq, hpre, hpost⟩
      · refine Or.inl ⟨?_, ?_⟩
        · rw [pickGo_cons_none rest _ hc]
          exact heq
        · intro s' hs' t' hct
          rcases List.mem_cons.1 hs' with rfl | hs2
          · rw [hc] at hct
            exact Option.noConfusion hct
          · exact hall s' hs2 t' hct
      · refine Or.inr ⟨s :: pre, sub, post, tsv, m,
          by rw [hsplit, List.cons_append], hcs, htsv, hbm, ?_, ?_, hpost⟩
        · rw [pickGo_cons_none rest _ hc]
          exact heq
        · intro s' hs' t' hct
          rcases List.mem_cons.1 hs' with rfl | hs2
          · rw [hc] at hct
            exact Option.noConfusion hct
          · exact hpre s' hs2 t' hct
    · by_cases hlt : bts < t
      · obtain ⟨hstt, hlg, hle, tsv0, hts0, hint0⟩ := candTsOf_shape hc
        rcases pickGo_from_state scrape lang rest (mkRec scrape lang tsv0 s) t with
          ⟨heq, hall⟩ |
          ⟨pre, sub, post, tsv, m, hsplit, hcs, htsv, hbm, heq, hpre, hpost⟩
        · refine Or.inr ⟨[], s, rest, tsv0, t, rfl, hc, hts0, hlt, ?_,
            by simp, hall⟩
          rw [pickGo_cons_some_lt rest hc hlt, getD_timestamp hts0]
          exact heq
        · refine Or.inr ⟨s :: pre, sub, post, tsv, m,
            by rw [hsplit, List.cons_append], hcs, htsv, lt_trans hlt hbm,
            ?_, ?_, hpost⟩
          · rw [pickGo_cons_some_lt rest hc hlt, getD_timestamp hts0]
            exact heq
          · intro s' hs' t' hct
            rcases List.mem_cons.1 hs' with rfl | hs2
            · rw [hc] at hct
              cases hct
              exact hbm
            · exact hpre s' hs2 t' hct
      · rcases pickGo_from_state scrape lang rest b bts with ⟨heq, hall⟩ |
          ⟨pre, sub, post, tsv, m, hsplit, hcs, htsv, hbm, heq, hpre, hpost⟩
        · refine Or.inl ⟨?_, ?_⟩
          · rw [pickGo_cons_some_ge rest hc hlt]
            exact heq
          · intro s' hs' t' hct
            rcases List.mem_cons.1 hs' with rfl | hs2
            · rw [hc] at hct
              cases hct
              omega
            · exact hall s' hs2 t' hct
        · refine Or.inr ⟨s :: pre, sub, post, tsv, m,
            by rw [hsplit, List.cons_append], hcs, htsv, hbm, ?_, ?_, hpost⟩
          · rw [pickGo_cons_some_ge rest hc hlt]
            exact heq
          · intro s' hs' t' hct
            rcases List.mem_cons.1 hs' with rfl | hs2
            · rw [hc] at hct
              cases hct
              omega
            · exact hpre s' hs2 t' hct

/-- Running `pickGo` from the empty state: either there is no candidate at
all, or the result is the record built from the first candidate achieving
the maximum timestamp. -/
theorem pickGo_start_spec (scrape : String → Option String) (lang : String) :
    ∀ (raw : List RawSub),
    (pickGo scrape lang raw none = none ∧
      ∀ s ∈ raw, ∀ t, candTsOf lang s = some t → False) ∨
    (∃ pre sub post tsv m, raw = pre ++ sub :: post ∧
      candTsOf lang sub = some m ∧ sub.timestamp = some tsv ∧
      pickGo scrape lang raw none = some (mkRec scrape lang tsv sub, m) ∧
      (∀ s ∈ pre, ∀ t, candTsOf lang s = some t → t < m) ∧
      (∀ s ∈ post, ∀ t, candTsOf lang s = some t → t ≤ m))
  | [] => Or.inl ⟨rfl, by simp⟩
  | s :: raw => by
    rcases hc : candTsOf lang s with _ | t
    · rcases pickGo_start_spec scrape lang raw with ⟨heq, hnone⟩ |
        ⟨pre, sub, post, tsv, m, hsplit, hcs, htsv, heq, hpre, hpost⟩
      · refine Or.inl ⟨?_, ?_⟩
        · rw [pickGo_cons_none raw _ hc]
          exact heq
        · intro s' hs' t' hct
          rcases List.mem_cons.1 hs' with rfl | hs2
          · rw [hc] at hct
            exact Option.noConfusion hct
          · exact hnone s' hs2 t' hct
      · refine Or.inr ⟨s :: pre, sub, post, tsv, m,
          by rw [hsplit, List.cons_append], hcs, htsv, ?_, ?_, hpost⟩
        · rw [pickGo_cons_none raw _ hc]
          exact heq
        · intro s' hs' t' hct
          rcases List.mem_cons.1 hs' with rfl | hs2
          · rw [hc] at hct
            exact Option.noConfusion hct
          · exact hpre s' hs2 t' hct
    · obtain ⟨hstt, hlg, hle, tsv0, hts0, hint0⟩ := candTsOf_shape hc
      rcases pickGo_from_state scrape lang raw (mkRec scrape lang tsv0 s) t with
        ⟨heq, hall⟩ |
        ⟨pre, sub, post, tsv, m, hsplit, hcs, htsv, hbm, heq, hpre, hpost⟩
      · refine Or.inr ⟨[], s, raw, tsv0, t, rfl, hc, hts0, ?_, by simp, hall⟩
        rw [pickGo_cons_some_none raw hc, getD_timestamp hts0]
        exact heq
      · refine Or.inr ⟨s :: pre, sub, post, tsv, m,
          by rw [hsplit, List.cons_append], hcs, htsv, ?_, ?_, hpost⟩
        · rw [pickGo_cons_some_none raw hc, getD_timestamp hts0]
          exact heq
        · intro s' hs' t' hct
          rcases List.mem_cons.1 hs' with rfl | hs2
          · rw [hc] at hct
            cases hct
            exact hbm
          · exact hpre s' hs2 t' hct

/-- Any record returned by `fetch_submissions_for_question` comes from a
successfully parsed response and originates from an accepted submission with
this (truthy) language and an `int()`-parseable timestamp. -/
theorem fetchSubs_mem_origin (o : SubsOutcome) (scrape : String → Option String)
    (r : SubRecordOut) (hr : r ∈ fetch_submissions_for_question o scrape) :
    ∃ status raw, o = SubsOutcome.resp status (some raw) ∧
      ∃ sub ∈ raw, ∃ tsv ts, sub.status_display = some "Accepted" ∧
        sub.lang = some r.language ∧ r.language ≠ "" ∧
        sub.timestamp = some tsv ∧ pyIntOfTs tsv = some ts ∧
        r = mkRec scrape r.language tsv sub := by
  rcases o with m | ⟨status, body⟩
  · exact absurd hr (by simp [fetch_submissions_for_question])
  · rcases body with _ | raw
    · have hempty : fetch_submissions_for_question
          (SubsOutcome.resp status none) scrape = [] := by
        simp only [fetch_submissions_for_question]
        split
        · rfl
        · split
          · rfl
          · split
            · rfl
            · rfl
      rw [hempty] at hr
      exact absurd hr (List.not_mem_nil r)
    · refine ⟨status, raw, rfl, ?_⟩
      simp only [fetch_submissions_for_question] at hr
      by_cases h1 : status = 403
      · rw [if_pos h1] at hr
        exact absurd hr (List.not_mem_nil r)
      · rw [if_neg h1] at hr
        by_cases h2 : status = 429
        · rw [if_pos h2] at hr
          exact absurd hr (List.not_mem_nil r)
        · rw [if_neg h2] at hr
          by_cases h3 : 400 ≤ status ∧ status < 600
          · rw [if_pos h3] at hr
            exact absurd hr (List.not_mem_nil r)
          · rw [if_neg h3] at hr
            rcases hml : mergeLoop scrape raw [] with e | acc
            · simp only [hml] at hr
              exact absurd hr (List.not_mem_nil r)
            · simp only [hml] at hr
              rcases List.mem_map.1 hr with ⟨kv, hkv, hkv2⟩
              rcases mergeLoop_origin scrape raw [] acc hml kv hkv with h0 |
                ⟨sub, hs, tsv, ts, ha, hb, hcc, hd, he, hf⟩
              · exact absurd h0 (List.not_mem_nil kv)
              · subst hkv2
                have hlangr : kv.2.language = kv.1 := by rw [hf]; rfl
                refine ⟨sub, hs, tsv, ts, ha, ?_, ?_, hd, he, ?_⟩
                · rw [hlangr]
                  exact hb
                · rw [hlangr]
                  exact hcc
                · rw [hlangr]
                  exact hf

/-! ## Claim C10 -/

/-- Claim C10: every `SubmissionRecord` in the exported output has status
`"Accepted"`, a non-empty language and a timestamp that parses as an
integer, and originates from a raw submission that is accepted, carries this
language, and whose timestamp value `int()` accepts — so raw submissions
with a missing/falsy language or an unparseable timestamp never appear in
the output, even when such a submission is the only accepted one for its
language. -/
theorem claim_C10_exported_submission_invariant
    (solved : List SolvedQuestion) (profile : Option MatchedUser)
    (subsEnv : String → SubsOutcome) (scrapeCodeEnv : String → Option String)
    (gqlEnv : String → PyResult QDResp) (pageEnv : String → ProbPage)
    (p : ProblemOut) (r : SubRecordOut)
    (hp : p ∈ (process_data solved profile subsEnv scrapeCodeEnv gqlEnv
      pageEnv).problems)
    (hr : r ∈ p.submissions) :
    r.status = "Accepted" ∧ r.language ≠ "" ∧
    (∃ m, pyParseInt r.timestamp = some m) ∧
    ∃ status raw, subsEnv p.slug = SubsOutcome.resp status (some raw) ∧
      ∃ sub ∈ raw, ∃ tsv ts, sub.status_display = some "Accepted" ∧
        sub.lang = some r.language ∧ sub.timestamp = some tsv ∧
        pyIntOfTs tsv = some ts ∧
        r = mkRec scrapeCodeEnv r.language tsv sub := by
  rcases List.mem_map.1 hp with ⟨q, hq, hqp⟩
  subst hqp
  have hr' : r ∈ fetch_submissions_for_question (subsEnv q.slug)
      scrapeCodeEnv := hr
  obtain ⟨status, raw, ho, sub, hs, tsv, ts, ha, hb, hc2, hd, he, hf⟩ :=
    fetchSubs_mem_origin _ _ r hr'
  refine ⟨by rw [hf]; rfl, hc2,
    ⟨ts, by rw [hf]; exact pyParseInt_pyStrOfTs tsv ts he⟩,
    status, raw, ho, sub, hs, tsv, ts, ha, hb, hd, he, hf⟩

/-- Claim C10 witness: the invariant applied to the concrete export. -/
theorem claim_C10_witness :
    (tieRec "1001").status = "Accepted" ∧ (tieRec "1001").language ≠ "" :=
  have h := claim_C10_exported_submission_invariant [qTwoSum] none envSub1
    scrapeNone gqlFail pageFail probEx (tieRec "1001") (by decide) (by decide)
  ⟨h.1, h.2.1⟩

/-! ## Claim C1 -/

/-- Claim C1 counterexample: two accepted submissions for the same language
with equal timestamps, ids `"1001"` then `"1002"` in input order; the merge
retains the one encountered first (`"1001"`), not the last as claimed. -/
theorem claim_C1_counterexample :
    (fetch_submissions_for_question (SubsOutcome.resp 200 (some rawTie))
        scrapeNone).map (fun r => r.submission_id) = ["1001"] ∧
    (tieSub "1001").timestamp = (tieSub "1002").timestamp ∧
    (tieSub "1001").id ≠ (tieSub "1002").id := by
  refine ⟨by decide, rfl, by decide⟩

/-- Claim C1 (amended): among submissions with status `"Accepted"` the merge
keeps exactly one record per distinct (truthy) language — the one with the
maximum timestamp — and on equal timestamps the FIRST one encountered in
input order is retained (the source compares with strict `>` at fetcher.py
line 177).  Stated for inputs whose accepted truthy-language submissions all
carry a timestamp key (otherwise the whole merge degrades to `[]`). -/
theorem claim_C1_merge_keeps_first_max (scrape : String → Option String)
    (raw : List RawSub)
    (Hts : ∀ sub ∈ raw, sub.status_display = some "Accepted" →
      truthyOpt sub.lang = true → sub.timestamp ≠ none)
    (out : List SubRecordOut)
    (hout : out = fetch_submissions_for_question
      (SubsOutcome.resp 200 (some raw)) scrape) :
    (∀ r1 ∈ out, ∀ r2 ∈ out, r1.language = r2.language → r1 = r2) ∧
    (∀ (lang : String) (sub : RawSub), sub ∈ raw →
      ∀ ts, candTsOf lang sub = some ts → ∃ r ∈ out, r.language = lang) ∧
    (∀ r ∈ out, ∃ pre sub post tsv m,
      raw = pre ++ sub :: post ∧
      candTsOf r.language sub = some m ∧
      sub.timestamp = some tsv ∧
      r = mkRec scrape r.language tsv sub ∧
      (∀ s ∈ pre, ∀ t, candTsOf r.language s = some t → t < m) ∧
      (∀ s ∈ post, ∀ t, candTsOf r.language s = some t → t ≤ m)) := by
  obtain ⟨acc, hml, hinv⟩ := mergeLoop_find scrape raw [] Hts (by simp)
  have hndp : dKeysNodup acc :=
    mergeLoop_nodup scrape raw [] acc (by simp [dKeysNodup]) hml
  have n1 : ¬(200 = 403) := by decide
  have n2 : ¬(200 = 429) := by decide
  have n3 : ¬(400 ≤ 200 ∧ 200 < 600) := by decide
  have hout' : out = dictValues acc := by
    rw [hout]
    simp only [fetch_submissions_for_question]
    rw [if_neg n1, if_neg n2, if_neg n3]
    simp only [hml]
  have horigin : ∀ kv ∈ acc, kv.2.language = kv.1 := by
    intro kv hkv
    rcases mergeLoop_origin scrape raw [] acc hml kv hkv with h0 |
      ⟨sub, hs, tsv, ts, ha, hb, hcc, hd, he, hf⟩
    · exact absurd h0 (List.not_mem_nil kv)
    · rw [hf]; rfl
  have hstart : ∀ lang : String,
      dictFind acc lang = optFst (pickGo scrape lang raw none) := by
    intro lang
    exact hinv lang none trivial
  refine ⟨?_, ?_, ?_⟩
  · intro r1 h1 r2 h2 hl12
    rw [hout'] at h1 h2
    rcases List.mem_map.1 h1 with ⟨kv1, hkv1, rfl⟩
    rcases List.mem_map.1 h2 with ⟨kv2, hkv2, rfl⟩
    have e1 : dictFind acc kv1.1 = some kv1.2 :=
      dictFind_of_mem acc kv1.1 kv1.2 hndp hkv1
    have e2 : dictFind acc kv2.1 = some kv2.2 :=
      dictFind_of_mem acc kv2.1 kv2.2 hndp hkv2
    have hk : kv1.1 = kv2.1 := by
      rw [← horigin kv1 hkv1, ← horigin kv2 hkv2]
      exact hl12
    rw [hk, e2] at e1
    exact (Option.some.inj e1).symm
  · intro lang sub hs ts hcand
    rcases pickGo_start_spec scrape lang raw with ⟨heq, hnone⟩ |
      ⟨pre, sub', post, tsv, m, hsplit, hcs, htsv, heq, hpre, hpost⟩
    · exact (hnone sub hs ts hcand).elim
    · refine ⟨mkRec scrape lang tsv sub', ?_, rfl⟩
      have hfmem : dictFind acc lang = some (mkRec scrape lang tsv sub') := by
        rw [hstart lang, heq]
        rfl
      have hmem := dictFind_mem acc lang _ hfmem
      rw [hout']
      exact List.mem_map.2 ⟨(lang, mkRec scrape lang tsv sub'), hmem, rfl⟩
  · intro r hrout
    rw [hout'] at hrout
    rcases List.mem_map.1 hrout with ⟨kv, hkv, rfl⟩
    have hlk : kv.2.language = kv.1 := horigin kv hkv
    have hfk : dictFind acc kv.1 = some kv.2 :=
      dictFind_of_mem acc kv.1 kv.2 hndp hkv
    have hcomb : optFst (pickGo scrape kv.1 raw none) = some kv.2 :=
      (hstart kv.1).symm.trans hfk
    rcases pickGo_start_spec scrape kv.1 raw with ⟨heq, _⟩ |
      ⟨pre, sub, post, tsv, m, hsplit, hcs, htsv, heq, hpre, hpost⟩
    · rw [heq] at hcomb
      exact absurd hcomb (by simp [optFst])
    · rw [heq] at hcomb
      have hkv2 : kv.2 = mkRec scrape kv.1 tsv sub := by
        simpa [optFst] using hcomb.symm
      refine ⟨pre, sub, post, tsv, m, hsplit, ?_, htsv, ?_, ?_, ?_⟩
      · rw [hlk]
        exact hcs
      · rw [hlk]
        exact hkv2
      · intro s hsp t hct
        rw [hlk] at hct
        exact hpre s hsp t hct
      · intro s hsp t hct
        rw [hlk] at hct
        exact hpost s hsp t hct

/-- Claim C1 witness: the amended statement applied at the tie input. -/
theorem claim_C1_witness :
    ∃ r ∈ fetch_submissions_for_question (SubsOutcome.resp 200 (some rawTie))
      scrapeNone, r.language = "python3" :=
  (claim_C1_merge_keeps_first_max scrapeNone rawTie (by decide) _ rfl).2.1
    "python3" (tieSub "1001") (by decide) 100 (by decide)

/-! ## Claim C2 -/

/-- Claim C2 counterexample: a 500 response to the solved-list enumeration
makes `fetch_solved_questions` raise an HTTP-error exception, and `main`
(with the earlier stages succeeding) exits 1 and emits no export — not exit
code 0 with `problems: []` as claimed. -/
theorem claim_C2_counterexample :
    fetch_solved_questions (SolvedOutcome.resp 500 (some []))
      = Except.error "HTTP error fetching solved questions (Status 500)" ∧
    mainRun usOk psOk (SolvedOutcome.resp 500 (some [])) envSub1 scrapeNone
      gqlFail pageFail = (1, none) ∧
    (1 : Nat) ≠ 0 :=
  ⟨rfl, rfl, by decide⟩

/-- Claim C2 (amended): an HTTP error status (4xx/5xx) on the solved-list
enumeration makes `fetch_solved_questions` raise — an authentication-failure
exception for 401/403, an HTTP-error exception otherwise — and `main`
converts the raised exception into exit code 1 with no export produced,
regardless of the other stages' outcomes.  The degrade-to-empty behaviour
the claim describes does not exist in this revision. -/
theorem claim_C2_solved_failure_aborts (status : Nat)
    (body : Option (List StatPair)) (h4 : 400 ≤ status) (h6 : status < 600)
    (conn : PyResult USResp) (ps : PyResult PSResp)
    (subsEnv : String → SubsOutcome) (scrapeCodeEnv : String → Option String)
    (gqlEnv : String → PyResult QDResp) (pageEnv : String → ProbPage) :
    (∃ e, fetch_solved_questions (SolvedOutcome.resp status body)
      = Except.error e) ∧
    mainRun conn ps (SolvedOutcome.resp status body) subsEnv scrapeCodeEnv
      gqlEnv pageEnv = (1, none) := by
  have herr : ∃ e, fetch_solved_questions (SolvedOutcome.resp status body)
      = Except.error e := by
    simp only [fetch_solved_questions]
    rw [if_pos ⟨h4, h6⟩]
    by_cases h13 : status = 401 ∨ status = 403
    · rw [if_pos h13]
      exact ⟨_, rfl⟩
    · rw [if_neg h13]
      exact ⟨_, rfl⟩
  refine ⟨herr, ?_⟩
  obtain ⟨e, he⟩ := herr
  unfold mainRun
  rcases htc : test_connection conn with e1 | u
  · simp only [htc]
  · simp only [htc]
    rcases hps : fetch_profile_stats ps with e2 | stats
    · simp only [hps]
    · simp only [hps, he]

/-- Claim C2 witness: the amended statement at a concrete 500 response. -/
theorem claim_C2_witness :
    (∃ e, fetch_solved_questions (SolvedOutcome.resp 500 (some []))
      = Except.error e) ∧
    mainRun usOk psOk (SolvedOutcome.resp 500 (some [])) envSub1 scrapeNone
      gqlFail pageFail = (1, none) :=
  claim_C2_solved_failure_aborts 500 (some []) (by decide) (by decide)
    usOk psOk envSub1 scrapeNone gqlFail pageFail

/-! ## Claim C5 -/

/-- Claim C5: when the structured-query details path soft-fails (errors or a
missing question object) and the scrape fallback also fails (page fetch
raises or a non-200 status), `fetch_problem_details` yields exactly the
slug-titled, empty-description, `"Unknown"`-difficulty, empty-tags record;
the record is never dropped: the export has one problem per solved question
and the degraded record appears for this slug. -/
theorem claim_C5_total_failure_detail
    (solved : List SolvedQuestion) (profile : Option MatchedUser)
    (subsEnv : String → SubsOutcome) (scrapeCodeEnv : String → Option String)
    (gqlEnv : String → PyResult QDResp) (pageEnv : String → ProbPage)
    (q : SolvedQuestion) (hq : q ∈ solved)
    (resp : QDResp) (hgql : gqlEnv q.slug = PyResult.value resp)
    (hfail : resp.hasErrorsOrNoData = true ∨ resp.question = none)
    (hpage : pageEnv q.slug = ProbPage.fetchErr ∨
      ∃ st doc, pageEnv q.slug = ProbPage.resp st doc ∧ st ≠ 200) :
    fetch_problem_details q.slug (gqlEnv q.slug) (pageEnv q.slug)
      = { title := q.slug, description := "", difficulty := "Unknown",
          tags := [] } ∧
    (process_data solved profile subsEnv scrapeCodeEnv gqlEnv
      pageEnv).problems.length = solved.length ∧
    ∃ p ∈ (process_data solved profile subsEnv scrapeCodeEnv gqlEnv
      pageEnv).problems,
      p.slug = q.slug ∧ p.title = q.slug ∧ p.description = "" ∧
      p.difficulty = "Unknown" ∧ p.tags = [] := by
  have hscrape : scrape_problem_description q.slug (pageEnv q.slug)
      = { title := q.slug, description := "", difficulty := "Unknown",
          tags := [] } := by
    rcases hpage with hferr | ⟨st, doc, hresp, hst⟩
    · rw [hferr]
      rfl
    · rw [hresp]
      simp only [scrape_problem_description]
      rw [if_pos hst]
  have hdet : fetch_problem_details q.slug (gqlEnv q.slug) (pageEnv q.slug)
      = { title := q.slug, description := "", difficulty := "Unknown",
          tags := [] } := by
    rw [hgql]
    unfold fetch_problem_details
    rcases hqn : resp.question with _ | q0
    · simp only [hqn]
      exact hscrape
    · simp only [hqn]
      rcases hfail with herr | hnone
      · rw [if_pos herr]
        exact hscrape
      · rw [hqn] at hnone
        exact absurd hnone (by simp)
  refine ⟨hdet, by simp [process_data], ?_⟩
  refine ⟨_, List.mem_map.2 ⟨q, hq, rfl⟩, rfl, ?_, ?_, ?_, ?_⟩ <;>
    simp only [hdet]

/-- Claim C5 witness: the degraded record at a concrete slug with both
paths failing. -/
theorem claim_C5_witness :
    fetch_problem_details qTwoSum.slug (gqlFail qTwoSum.slug)
        (pageFail qTwoSum.slug)
      = { title := qTwoSum.slug, description := "", difficulty := "Unknown",
          tags := [] } :=
  (claim_C5_total_failure_detail [qTwoSum] none envSub1 scrapeNone gqlFail
    pageFail qTwoSum (List.mem_cons_self _ _)
    { hasErrorsOrNoData := true, question := none } rfl (Or.inl rfl)
    (Or.inl rfl)).1

/-! ## Claim C7 -/

theorem tierOnce_tail {it : ACItem} {rest : List ACItem} {d : String}
    (h : tierOnce (it :: rest) d) : tierOnce rest d := by
  unfold tierOnce at h ⊢
  by_cases hc : it.difficulty = some d
  · rw [List.filter_cons, if_pos (by simp [hc])] at h
    rw [List.length_cons] at h
    omega
  · rw [List.filter_cons, if_neg (by simp [hc])] at h
    exact h

theorem tierOnce_head_not_rest {it : ACItem} {rest : List ACItem} {d : String}
    (h : tierOnce (it :: rest) d) (hd : it.difficulty = some d) :
    ∀ it2 ∈ rest, it2.difficulty ≠ some d := by
  intro it2 h2 hd2
  unfold tierOnce at h
  rw [List.filter_cons, if_pos (by simp [hd]), List.length_cons] at h
  have hmem : it2 ∈ rest.filter (fun it => it.difficulty = some d) :=
    List.mem_filter.2 ⟨h2, by simp [hd2]⟩
  have hlen : (rest.filter (fun it => it.difficulty = some d)).length = 0 := by
    omega
  rw [List.length_eq_zero] at hlen
  rw [hlen] at hmem
  exact List.not_mem_nil it2 hmem

/-- The per-tier fold keeps `total = easy + medium + hard` when each tier
occurs at most once and each tier still to come holds its initial 0. -/
theorem procStatsGo_sum : ∀ (items : List ACItem) (e m h t : Int),
    t = e + m + h →
    ((∃ it ∈ items, it.difficulty = some "Easy") → e = 0) →
    ((∃ it ∈ items, it.difficulty = some "Medium") → m = 0) →
    ((∃ it ∈ items, it.difficulty = some "Hard") → h = 0) →
    tierOnce items "Easy" → tierOnce items "Medium" → tierOnce items "Hard" →
    (procStatsGo items e m h t).2.2.2
      = (procStatsGo items e m h t).1 + (procStatsGo items e m h t).2.1
        + (procStatsGo items e m h t).2.2.1
  | [], e, m, h, t, hsum, _, _, _, _, _, _ => by
    simpa [procStatsGo] using hsum
  | it :: rest, e, m, h, t, hsum, hE, hM, hH, tE, tM, tH => by
    have hEr : (∃ it2 ∈ rest, it2.difficulty = some "Easy") → e = 0 :=
      fun ⟨it2, h2, hd2⟩ => hE ⟨it2, List.mem_cons_of_mem _ h2, hd2⟩
    have hMr : (∃ it2 ∈ rest, it2.difficulty = some "Medium") → m = 0 :=
      fun ⟨it2, h2, hd2⟩ => hM ⟨it2, List.mem_cons_of_mem _ h2, hd2⟩
    have hHr : (∃ it2 ∈ rest, it2.difficulty = some "Hard") → h = 0 :=
      fun ⟨it2, h2, hd2⟩ => hH ⟨it2, List.mem_cons_of_mem _ h2, hd2⟩
    rcases hd : it.difficulty with _ | d
    · simp only [procStatsGo, hd]
      exact procStatsGo_sum rest e m h t hsum hEr hMr hHr
        (tierOnce_tail tE) (tierOnce_tail tM) (tierOnce_tail tH)
    · simp only [procStatsGo, hd]
      by_cases h1 : d = "Easy"
      · subst h1
        rw [if_pos rfl]
        have he0 : e = 0 := hE ⟨it, List.mem_cons_self _ _, hd⟩
        refine procStatsGo_sum rest _ m h _ (by omega) ?_ hMr hHr
          (tierOnce_tail tE) (tierOnce_tail tM) (tierOnce_tail tH)
        intro ⟨it2, h2, hd2⟩
        exact absurd hd2 (tierOnce_head_not_rest tE hd it2 h2)
      · rw [if_neg h1]
        by_cases h2 : d = "Medium"
        · subst h2
          rw [if_pos rfl]
          have hm0 : m = 0 := hM ⟨it, List.mem_cons_self _ _, hd⟩
          refine procStatsGo_sum rest e _ h _ (by omega) hEr ?_ hHr
            (tierOnce_tail tE) (tierOnce_tail tM) (tierOnce_tail tH)
          intro ⟨it2, h2, hd2⟩
          exact absurd hd2 (tierOnce_head_not_rest tM hd it2 h2)
        · rw [if_neg h2]
          by_cases h3 : d = "Hard"
          · subst h3
            rw [if_pos rfl]
            have hh0 : h = 0 := hH ⟨it, List.mem_cons_self _ _, hd⟩
            refine procStatsGo_sum rest e m _ _ (by omega) hEr hMr ?_
              (tierOnce_tail tE) (tierOnce_tail tM) (tierOnce_tail tH)
            intro ⟨it2, h2, hd2⟩
            exact absurd hd2 (tierOnce_head_not_rest tH hd it2 h2)
          · rw [if_neg h3]
            exact procStatsGo_sum rest e m h t hsum hEr hMr hHr
              (tierOnce_tail tE) (tierOnce_tail tM) (tierOnce_tail tH)

/-- An `"All"` item (the upstream pre-summed entry) never affects the fold. -/
theorem procStatsGo_all_skipped :
    ∀ (pre post : List ACItem) (cnt : Option Int) (e m h t : Int),
    procStatsGo (pre ++ { difficulty := some "All", count := cnt } :: post)
      e m h t = procStatsGo (pre ++ post) e m h t
  | [], post, cnt, e, m, h, t => by
    have n1 : ¬("All" = "Easy") := by decide
    have n2 : ¬("All" = "Medium") := by decide
    have n3 : ¬("All" = "Hard") := by decide
    simp only [List.nil_append, procStatsGo]
    rw [if_neg n1, if_neg n2, if_neg n3]
  | it :: pre, post, cnt, e, m, h, t => by
    rcases hd : it.difficulty with _ | d
    · simp only [List.cons_append, procStatsGo, hd]
      exact procStatsGo_all_skipped pre post cnt e m h t
    · simp only [List.cons_append, procStatsGo, hd]
      by_cases h1 : d = "Easy"
      · rw [if_pos h1, if_pos h1]
        exact procStatsGo_all_skipped pre post cnt _ _ _ _
      · rw [if_neg h1, if_neg h1]
        by_cases h2 : d = "Medium"
        · rw [if_pos h2, if_pos h2]
          exact procStatsGo_all_skipped pre post cnt _ _ _ _
        · rw [if_neg h2, if_neg h2]
          by_cases h3 : d = "Hard"
          · rw [if_pos h3, if_pos h3]
            exact procStatsGo_all_skipped pre post cnt _ _ _ _
          · rw [if_neg h3, if_neg h3]
            exact procStatsGo_all_skipped pre post cnt _ _ _ _

/-- Claim C7 counterexample: when the `Easy` tier appears twice in the
response (counts 5 then 3), the slot is overwritten to 3 but the total
accumulates both, so `total_solved = 8 ≠ 3 + 0 + 0 = easy + medium + hard`. -/
theorem claim_C7_counterexample :
    (process_data [] (some dupProfile) envSub1 scrapeNone gqlFail
      pageFail).profile_stats
      = { total_solved := 8, easy := 3, medium := 0, hard := 0 } ∧
    (8 : Int) ≠ 3 + 0 + 0 :=
  ⟨rfl, by decide⟩

/-- Claim C7 (amended): for every profile-stats response in which each tier
difficulty (`Easy`, `Medium`, `Hard`) occurs at most once, the exported
`profile_stats` satisfies `total_solved = easy + medium + hard`, the total
being recomputed from the per-tier counts; the upstream pre-summed `"All"`
entry is ignored entirely, even when its value is inconsistent. -/
theorem claim_C7_total_recomputed (solved : List SolvedQuestion)
    (subsEnv : String → SubsOutcome) (scrapeCodeEnv : String → Option String)
    (gqlEnv : String → PyResult QDResp) (pageEnv : String → ProbPage)
    (mu : MatchedUser) (items : List ACItem)
    (hsub : mu.submitStats = some items)
    (hE : tierOnce items "Easy") (hM : tierOnce items "Medium")
    (hH : tierOnce items "Hard") :
    ((process_data solved (some mu) subsEnv scrapeCodeEnv gqlEnv
        pageEnv).profile_stats.total_solved
      = (process_data solved (some mu) subsEnv scrapeCodeEnv gqlEnv
          pageEnv).profile_stats.easy
        + (process_data solved (some mu) subsEnv scrapeCodeEnv gqlEnv
            pageEnv).profile_stats.medium
        + (process_data solved (some mu) subsEnv scrapeCodeEnv gqlEnv
            pageEnv).profile_stats.hard) ∧
    (∀ (pre post : List ACItem) (cnt : Option Int) (e m h t : Int),
      procStatsGo (pre ++ { difficulty := some "All", count := cnt } :: post)
        e m h t = procStatsGo (pre ++ post) e m h t) := by
  refine ⟨?_, procStatsGo_all_skipped⟩
  have hst := procStatsGo_sum items 0 0 0 0 (by norm_num)
    (fun _ => rfl) (fun _ => rfl) (fun _ => rfl) hE hM hH
  simp only [process_data, hsub]
  exact hst

/-- Claim C7 witness: the recomputed total at a concrete well-formed
response carrying an inconsistent `All` entry. -/
theorem claim_C7_witness :
    (process_data [] (some okProfile) envSub1 scrapeNone gqlFail
        pageFail).profile_stats.total_solved
      = (process_data [] (some okProfile) envSub1 scrapeNone gqlFail
          pageFail).profile_stats.easy
        + (process_data [] (some okProfile) envSub1 scrapeNone gqlFail
            pageFail).profile_stats.medium
        + (process_data [] (some okProfile) envSub1 scrapeNone gqlFail
            pageFail).profile_stats.hard :=
  (claim_C7_total_recomputed [] envSub1 scrapeNone gqlFail pageFail
    okProfile _ rfl (by unfold tierOnce; decide) (by unfold tierOnce; decide)
    (by unfold tierOnce; decide)).1

/-! ## Claim C8 -/

theorem fetchSubs_resp_none (status : Nat) (scr : String → Option String) :
    fetch_submissions_for_question (SubsOutcome.resp status none) scr = [] := by
  simp only [fetch_submissions_for_question]
  split
  · rfl
  · split
    · rfl
    · split
      · rfl
      · rfl

/-- Every request-level failure of the submissions fetch yields `[]`. -/
theorem subsFetchFails_empty (o : SubsOutcome) (ho : subsFetchFails o)
    (scr : String → Option String) :
    fetch_submissions_for_question o scr = [] := by
  rcases o with m | ⟨status, body⟩
  · rfl
  · have ho' : status = 403 ∨ status = 429 ∨ (400 ≤ status ∧ status < 600) ∨
        body = none := ho
    rcases ho' with h1 | h2 | h3 | h4
    · simp only [fetch_submissions_for_question]
      rw [if_pos h1]
    · simp only [fetch_submissions_for_question]
      by_cases h403 : status = 403
      · rw [if_pos h403]
      · rw [if_neg h403, if_pos h2]
    · simp only [fetch_submissions_for_question]
      by_cases h403 : status = 403
      · rw [if_pos h403]
      · rw [if_neg h403]
        by_cases h429 : status = 429
        · rw [if_pos h429]
        · rw [if_neg h429, if_pos h3]
    · subst h4
      exact fetchSubs_resp_none status scr

/-- Claim C8: when the three fatal stages succeed, the run exits 0 and emits
the export; each exported problem's submissions are exactly the result of
its own slug's fetch (so other slugs are unaffected by one slug's failure);
and every request-level failure — authentication, rate limit, HTTP error,
network error, or parse error — makes that slug's fetch return `[]`. -/
theorem claim_C8_per_slug_isolation (conn : PyResult USResp)
    (ps : PyResult PSResp) (solvedO : SolvedOutcome)
    (subsEnv : String → SubsOutcome) (scrapeCodeEnv : String → Option String)
    (gqlEnv : String → PyResult QDResp) (pageEnv : String → ProbPage)
    (qs : List SolvedQuestion) (stats : MatchedUser)
    (hconn : test_connection conn = Except.ok ())
    (hps : fetch_profile_stats ps = Except.ok stats)
    (hqs : fetch_solved_questions solvedO = Except.ok qs) :
    mainRun conn ps solvedO subsEnv scrapeCodeEnv gqlEnv pageEnv
      = (0, some (process_data qs (some stats) subsEnv scrapeCodeEnv gqlEnv
          pageEnv)) ∧
    (∀ i : Nat,
      ((process_data qs (some stats) subsEnv scrapeCodeEnv gqlEnv
          pageEnv).problems.get? i).map ProblemOut.submissions
        = (qs.get? i).map (fun q' =>
            fetch_submissions_for_question (subsEnv q'.slug) scrapeCodeEnv)) ∧
    (∀ o : SubsOutcome, subsFetchFails o →
      ∀ scr, fetch_submissions_for_question o scr = []) := by
  refine ⟨?_, ?_, fun o ho scr => subsFetchFails_empty o ho scr⟩
  · unfold mainRun
    simp only [hconn, hps, hqs]
  · intro i
    simp only [process_data]
    rw [List.get?_map]
    rcases hq : qs.get? i with _ | q'
    · rfl
    · rfl

/-- Claim C8 witness: the isolation statement at a concrete successful run. -/
theorem claim_C8_witness :
    mainRun usOk psOk (SolvedOutcome.resp 200 (some [])) envSub1 scrapeNone
      gqlFail pageFail
      = (0, some (process_data [] (some { submitStats := some [] }) envSub1
          scrapeNone gqlFail pageFail)) :=
  (claim_C8_per_slug_isolation usOk psOk (SolvedOutcome.resp 200 (some []))
    envSub1 scrapeNone gqlFail pageFail [] { submitStats := some [] }
    rfl rfl rfl).1

/-! ## Claim C9 -/

/-- Claim C9 counterexample: for the solved question `two-sum`
(enumeration-time title `"Two Sum"`, difficulty `"Easy"`) with both details
paths failing, the exported problem carries the slug-derived title
`"two-sum"` and difficulty `"Unknown"` — the enumeration-time values are
skipped, not used as the claimed middle link of the preference chain. -/
theorem claim_C9_counterexample :
    exportEx.problems = [probEx] ∧
    qTwoSum.title = "Two Sum" ∧ qTwoSum.difficulty = "Easy" ∧
    probEx.title = "two-sum" ∧ probEx.difficulty = "Unknown" ∧
    probEx.title ≠ qTwoSum.title ∧
    probEx.difficulty ≠ qTwoSum.difficulty := by
  refine ⟨by decide, rfl, rfl, rfl, rfl, by decide, by decide⟩

/-- Claim C9 (amended): the merged ProblemDetail always takes title and
difficulty from the `fetch_problem_details` result (which itself prefers
the structured-query values, then the scrape fallback, then slug-derived
defaults); the enumeration-time title and difficulty recorded for the
question are never consulted, because `fetch_problem_details` supplies
every key on all of its return paths, leaving the source's dictionary-get
fallbacks dead. -/
theorem claim_C9_details_always_win (solved : List SolvedQuestion)
    (profile : Option MatchedUser) (subsEnv : String → SubsOutcome)
    (scrapeCodeEnv : String → Option String)
    (gqlEnv : String → PyResult QDResp) (pageEnv : String → ProbPage) :
    ∀ i : Nat,
      ((process_data solved profile subsEnv scrapeCodeEnv gqlEnv
          pageEnv).problems.get? i).map (fun p => (p.title, p.difficulty))
        = (solved.get? i).map (fun q =>
            ((fetch_problem_details q.slug (gqlEnv q.slug)
              (pageEnv q.slug)).title,
             (fetch_problem_details q.slug (gqlEnv q.slug)
              (pageEnv q.slug)).difficulty)) := by
  intro i
  simp only [process_data]
  rw [List.get?_map]
  rcases hq : solved.get? i with _ | q
  · rfl
  · rfl

/-! ## Claim C6 -/

/-- Claim C6: `parse_html_content` removes `<pre>` blocks entirely, collapses
runs of blank lines to a single blank line, collapses runs of spaces to one
space, and trims leading/trailing whitespace; in particular the normalization
of `"<pre>code</pre><p>Hello   world</p>"` is `"Hello world"`, and empty or
absent input yields the empty string without failing.  Stated as: the two
falsy inputs and the empty document give `""`; the spec's example and a
blank-line/padding example evaluate as described; the `pre`-extraction pass
leaves no `pre` element; and every output has no two adjacent spaces and no
Python whitespace at either end. -/
theorem claim_C6_parse_html_content :
    parse_html_content none = "" ∧
    parse_html_content (some HForest.nil) = "" ∧
    parse_html_content (some exDoc) = "Hello world" ∧
    parse_html_content (some blankDoc) = "Start\n\nEnd" ∧
    parse_html_content (some padDoc) = "Hi" ∧
    (∀ doc : HForest, preFreeF (removePreF doc) = true) ∧
    (∀ doc : HForest,
      hasDoubleSpace (parse_html_content (some doc)).data = false) ∧
    (∀ (doc : HForest) (c : Char),
      (parse_html_content (some doc)).data.head? = some c →
        isPySpace c = false) ∧
    (∀ (doc : HForest) (c : Char),
      (parse_html_content (some doc)).data.getLast? = some c →
        isPySpace c = false) := by
  refine ⟨rfl, rfl, rfl, rfl, rfl, preFreeF_removePreF, ?_, ?_, ?_⟩
  · intro doc
    exact hasDoubleSpace_pyStrip _ (hasDoubleSpace_csGo _ false)
  · intro doc c h
    exact pyStrip_head _ c h
  · intro doc c h
    exact pyStrip_last _ c h

/-- Claim C6 witness: the general conjuncts applied at the spec's example
document. -/
theorem claim_C6_witness :
    isPySpace 'H' = false ∧ isPySpace 'd' = false :=
  ⟨claim_C6_parse_html_content.2.2.2.2.2.2.2.1 exDoc 'H' rfl,
   claim_C6_parse_html_content.2.2.2.2.2.2.2.2 exDoc 'd' rfl⟩

/-! ## Claims C3 and C4 -/

/-- Claim C3: the claim states that when the wrapped operation fails with a
rate-limit error on every invocation, `handle_rate_limit` (bound 5) re-raises
the last `RateLimited` failure after the bound is exceeded and does not return
a non-error value.  The code does the opposite: after five rate-limited
attempts the `while` loop guard fails and the function falls off the end,
returning `None` — a non-error value — rather than re-raising.  This theorem
evaluates the code on any always-rate-limited operation. -/
theorem claim_C3_rate_limit_exhaustion_returns_none
    (f : Nat → PyResult Unit)
    (hf : ∀ n, ∃ m, f n = .raised m ∧ pyIn rateLimitedMsg m = true) :
    handle_rate_limit f 5 = .noneReturn ∧
    ∀ m, handle_rate_limit f 5 ≠ .raised m := by
  have go : ∀ g r, g + r = 5 → handleRateLimitGo f 5 r g = .noneReturn := by
    intro g
    induction g with
    | zero => intro r _; rfl
    | succ g ih =>
      intro r hr
      obtain ⟨m, hm, hin⟩ := hf r
      have hrlt : r < 5 := by omega
      have hd : decide (r < 5) = true := decide_eq_true hrlt
      simp only [handleRateLimitGo, hm, hin, hd, Bool.and_self, if_pos]
      exact ih (r + 1) (by omega)
  have h0 : handle_rate_limit f 5 = .noneReturn := go 5 0 rfl
  exact ⟨h0, fun m hm => by rw [h0] at hm; exact PyResult.noConfusion hm⟩

/-- Claim C3 witness: the concrete always-rate-limited operation. -/
theorem claim_C3_witness :
    handle_rate_limit (fun _ => (PyResult.raised rateLimitedMsg : PyResult Unit)) 5
      = .noneReturn ∧
    ∀ m, handle_rate_limit
        (fun _ => (PyResult.raised rateLimitedMsg : PyResult Unit)) 5 ≠ .raised m :=
  claim_C3_rate_limit_exhaustion_returns_none _
    (fun _ => ⟨rateLimitedMsg, rfl, by decide⟩)

/-- Claim C4: a 403 response makes `make_request` fail immediately and
permanently with the authentication-failure error, issuing exactly one HTTP
request, for every retry bound of at least one attempt and regardless of what
the transport would answer to later requests. -/
theorem claim_C4_403_fails_immediately_one_request
    (β : Type) (transport : Nat → ReqOutcome β) (b : β) (maxRetries : Nat)
    (hmax : 1 ≤ maxRetries) (h403 : transport 0 = .resp 403 b) :
    make_request transport maxRetries = (.raised authFailedMsg, 1) := by
  obtain ⟨g, rfl⟩ : ∃ g, maxRetries = g + 1 :=
    ⟨maxRetries - 1, by omega⟩
  simp [make_request, makeRequestGo, h403]

/-- Claim C4 witness: a transport that always answers 403, at the source's
default bound of 3. -/
theorem claim_C4_witness :
    make_request (fun _ => ReqOutcome.resp 403 ()) 3 = (.raised authFailedMsg, 1) :=
  claim_C4_403_fails_immediately_one_request Unit _ () 3 (by decide) rfl

end LCF
